import Mathlib

/-!
# maci::ContainerImpl

A shallow embedding of the template accessors `get_object<T>`, `getComponent<T>` and
`getService<T>` of `maciContainerImpl.h`, and of the component registry that the header
declares (`m_activeComponents`, `m_activeComponentList`, `m_componentShutdownOrder`).

Conventions of the embedding.

* A C string (`const char *`) is the list of its characters before the terminating NUL;
  a null pointer is `none`.
* `maci::Handle` and `CORBA::ULong` are natural numbers; `0` is the unassigned handle.
* A CORBA object reference is `Option Obj`, with `none` for the nil reference; the
  narrowed reference `T*` is `Option T`, with `none` for `T::_nil()`.
* A call that can raise yields an `Except Exn`; what a `catch` clause does is written out.
* `m_handle` and `m_shutdown` are written by other threads. The accessor sees them through
  `fields i`, the value of the fields at its `i`-th look at the container.
* The `while` loop runs on fuel: one unit of fuel is one evaluation of the loop test.
* Logging (`ACS_SHORT_LOG`, `ACE_PRINT_EXCEPTION`) is left out.
-/

namespace maci

/-! ## Strings -/

/-- C string: the characters before the terminating NUL. -/
abbrev CStr := List Char

/-- Length of a C string, `strlen`. -/
def strlen (s : CStr) : Nat := s.length

/-- Comparison `strncmp(a, b, n)`: at most `n` characters are compared, and the comparison
stops at the first difference or at the end of both strings. The end of a list stands for
the terminating NUL, which compares as `0`. The result is zero exactly when no difference
was found. -/
def strncmp : CStr → CStr → Nat → Int
  | _, _, 0 => 0
  | [], [], _ + 1 => 0
  | [], b :: _, _ + 1 => 0 - (b.toNat : Int)
  | a :: _, [], _ + 1 => (a.toNat : Int) - 0
  | a :: as, b :: bs, n + 1 =>
    if a = b then strncmp as bs n else (a.toNat : Int) - (b.toNat : Int)

/-- Literal `char *curl_str = "curl://";` of `get_object<T>`. -/
def curl_str : CStr := ['c', 'u', 'r', 'l', ':', '/', '/']

/-- CURL built by `get_object<T>` (lines 636-647):
```
ACE_CString curl = "";
if (strncmp(name, curl_str, strlen(curl_str)) != 0)
  { curl += curl_str; if (domain) curl += domain; curl += ACE_CString("/"); }
curl += name;
``` -/
def get_object_curl (name : CStr) (domain : Option CStr) : CStr :=
  let curl : CStr := []
  let curl :=
    if strncmp name curl_str (strlen curl_str) ≠ 0 then
      let curl := curl ++ curl_str
      let curl := match domain with
        | some domain => curl ++ domain
        | none => curl
      curl ++ ['/']
    else curl
  curl ++ name

/-- CURL built by `getComponent<T>` (lines 705-711):
```
ACE_CString curl = "curl://";
if (domain) curl += domain;
curl += ACE_CString("/");
curl += name;
``` -/
def getComponent_curl (name : CStr) (domain : Option CStr) : CStr :=
  let curl : CStr := ['c', 'u', 'r', 'l', ':', '/', '/']
  let curl := match domain with
    | some domain => curl ++ domain
    | none => curl
  let curl := curl ++ ['/']
  curl ++ name

/-- CURL built by `getService<T>` (lines 769-775), written as in `getComponent<T>`. -/
def getService_curl (name : CStr) (domain : Option CStr) : CStr :=
  let curl : CStr := ['c', 'u', 'r', 'l', ':', '/', '/']
  let curl := match domain with
    | some domain => curl ++ domain
    | none => curl
  let curl := curl ++ ['/']
  curl ++ name

/-- Path of the specification: a name whose first seven characters are `curl://` is sent
unchanged, any other name is sent as `curl://` followed by the domain (empty when the
domain is null), a slash and the name. -/
def specPath (name : CStr) (domain : Option CStr) : CStr :=
  if name.take 7 = "curl://".toList then name
  else "curl://".toList ++ domain.getD [] ++ "/".toList ++ name

/-! ## The container as the accessors see it -/

/-- Handle `maci::Handle`; `0` is the unassigned handle. -/
abbrev Handle := Nat

/-- Fields of `ContainerImpl` written by other threads while an accessor runs. -/
structure ContainerFields where
  /-- Handle of the container (given from the Manager at logon). -/
  m_handle : Handle
  /-- Is the manager shutting down? -/
  m_shutdown : Bool
deriving DecidableEq, Repr

/-- Exceptions, as the two `catch` clauses tell them apart. -/
inductive Exn where
  /-- Any `CORBA::Exception`. -/
  | corba
  /-- Anything else, caught by `catch(...)`. -/
  | other
deriving DecidableEq, Repr

/-- Manager operations `get_component` and `get_service`: called with the handle, the CURL
and the activate flag, they return an object reference and the out-parameter `status`, or
raise. -/
structure Manager (Obj : Type) where
  get_component : Handle → CStr → Bool → Except Exn (Option Obj × Nat)
  get_service : Handle → CStr → Bool → Except Exn (Option Obj × Nat)

/-- What an accessor does that is visible from outside, in order. -/
inductive Event (Obj : Type) where
  /-- One `ACE_OS::sleep(1)` of the wait loop. -/
  | sleep
  /-- One call `m_manager->get_component(handle, curl, activate, status)`. -/
  | get_component (handle : Handle) (curl : CStr) (activate : Bool)
  /-- One call `m_manager->get_service(handle, curl, activate, status)`. -/
  | get_service (handle : Handle) (curl : CStr) (activate : Bool)
  /-- One call `T::_narrow(obj)`. -/
  | narrow (obj : Obj)
deriving DecidableEq, Repr

/-- Everything an accessor of `ContainerImpl` depends on besides its arguments. -/
structure Env (Obj T : Type) where
  /-- Constant `maci::Manager::COMPONENT_ACTIVATED` of the IDL. -/
  COMPONENT_ACTIVATED : Nat
  /-- Reference to the manager. -/
  m_manager : Manager Obj
  /-- Narrowing `T::_narrow` on a non-nil reference: a `T*`, nil on a type mismatch, or an
  exception. -/
  narrow : Obj → Except Exn (Option T)
  /-- Value of the fields at the `i`-th look of the accessor at the container. -/
  fields : Nat → ContainerFields

/-- One run of an accessor, cut off after a number of loop tests. -/
structure Run (Obj T : Type) where
  /-- Sleeps and calls made so far. -/
  trace : List (Event Obj)
  /-- Completion: `none` while the accessor is still inside the wait loop, `some (.ok t)`
  when it returned `t` to its caller, `some (.error e)` when `e` left the accessor. -/
  result : Option (Except Exn (Option T))

/-- Wait loop shared by the three accessors:
```
while (m_handle==0) { ACS_SHORT_LOG(...); ACE_OS::sleep(1); }
```
The test of iteration `i` is look `i`. The value is the number of sleeps after which the
loop was left, or `none` when the fuel ran out first. -/
def waitForHandle (fields : Nat → ContainerFields) : Nat → Nat → Option Nat
  | 0, _ => none
  | fuel + 1, i =>
    if (fields i).m_handle = 0 then waitForHandle fields fuel (i + 1) else some i

/-- Handlers of the `try` block of the accessors: both clauses return `T::_nil()`.
```
catch( CORBA::Exception &ex ) { ACE_PRINT_EXCEPTION(...); return T::_nil(); }
catch(...) { return T::_nil(); }
``` -/
def catchClauses {T : Type} : Except Exn (Option T) → Except Exn (Option T)
  | .ok t => .ok t
  | .error .corba => .ok none
  | .error .other => .ok none

/-- Accessor `ContainerImpl::get_object<T>` (lines 617-683). -/
def get_object {Obj T : Type} (env : Env Obj T) (fuel : Nat)
    (name domain : Option CStr) (activate : Bool) : Run Obj T :=
  match name with
  | none => { trace := [], result := some (.ok none) }
  | some name =>
    let curl := get_object_curl name domain
    match waitForHandle env.fields fuel 0 with
    | none => { trace := List.replicate fuel .sleep, result := none }
    | some k =>
      let m_handle := (env.fields (k + 1)).m_handle
      let waited : List (Event Obj) := List.replicate k .sleep
      match env.m_manager.get_component m_handle curl activate with
      | .error e =>
        { trace := waited ++ [.get_component m_handle curl activate],
          result := some (catchClauses (.error e)) }
      | .ok (obj, status) =>
        match obj with
        | none =>
          { trace := waited ++ [.get_component m_handle curl activate],
            result := some (catchClauses (.ok none)) }
        | some o =>
          if status ≠ env.COMPONENT_ACTIVATED then
            { trace := waited ++ [.get_component m_handle curl activate],
              result := some (catchClauses (.ok none)) }
          else
            { trace := waited ++ [.get_component m_handle curl activate, .narrow o],
              result := some (catchClauses (env.narrow o)) }

/-- Accessor `ContainerImpl::getComponent<T>` (lines 688-747). -/
def getComponent {Obj T : Type} (env : Env Obj T) (fuel : Nat)
    (name domain : Option CStr) (activate : Bool) : Run Obj T :=
  match name with
  | none => { trace := [], result := some (.ok none) }
  | some name =>
    let curl := getComponent_curl name domain
    match waitForHandle env.fields fuel 0 with
    | none => { trace := List.replicate fuel .sleep, result := none }
    | some k =>
      let m_handle := (env.fields (k + 1)).m_handle
      let waited : List (Event Obj) := List.replicate k .sleep
      match env.m_manager.get_component m_handle curl activate with
      | .error e =>
        { trace := waited ++ [.get_component m_handle curl activate],
          result := some (catchClauses (.error e)) }
      | .ok (obj, status) =>
        match obj with
        | none =>
          { trace := waited ++ [.get_component m_handle curl activate],
            result := some (catchClauses (.ok none)) }
        | some o =>
          if status ≠ env.COMPONENT_ACTIVATED then
            { trace := waited ++ [.get_component m_handle curl activate],
              result := some (catchClauses (.ok none)) }
          else
            { trace := waited ++ [.get_component m_handle curl activate, .narrow o],
              result := some (catchClauses (env.narrow o)) }

/-- Accessor `ContainerImpl::getService<T>` (lines 752-811). -/
def getService {Obj T : Type} (env : Env Obj T) (fuel : Nat)
    (name domain : Option CStr) (activate : Bool) : Run Obj T :=
  match name with
  | none => { trace := [], result := some (.ok none) }
  | some name =>
    let curl := getService_curl name domain
    match waitForHandle env.fields fuel 0 with
    | none => { trace := List.replicate fuel .sleep, result := none }
    | some k =>
      let m_handle := (env.fields (k + 1)).m_handle
      let waited : List (Event Obj) := List.replicate k .sleep
      match env.m_manager.get_service m_handle curl activate with
      | .error e =>
        { trace := waited ++ [.get_service m_handle curl activate],
          result := some (catchClauses (.error e)) }
      | .ok (obj, status) =>
        match obj with
        | none =>
          { trace := waited ++ [.get_service m_handle curl activate],
            result := some (catchClauses (.ok none)) }
        | some o =>
          if status ≠ env.COMPONENT_ACTIVATED then
            { trace := waited ++ [.get_service m_handle curl activate],
              result := some (catchClauses (.ok none)) }
          else
            { trace := waited ++ [.get_service m_handle curl activate, .narrow o],
              result := some (catchClauses (env.narrow o)) }

/-! ## Registry and engines

The bodies of `activate_component`, `deactivate_components`, `get_component_info`,
`set_component_shutdown_order` and `done` are not in the header; the header declares them
and the data they work on. They are modelled from sections 3 and 4 of the specification.
-/

/-- Modelled from the spec: the error taxonomy of section 7; the header declares none. -/
inductive Error where
  | DuplicateHandle
  | LibraryLoadError
  | ConstructionError
  | ConfigurationError
  | AdapterActivationError
  | NotFound
  | EtherealizeError
  | ManagerUnreachable
  | AuthenticationError
  | SystemError
deriving DecidableEq, Repr

/-- Modelled from the spec: the IDL struct `maci::ComponentInfo` is not among the sources;
section 3 gives it the fields name, type, handle, reference and owning container. The
reference is the identity of the remote reference. -/
structure ComponentInfo where
  name : CStr
  type : CStr
  h : Handle
  reference : Nat
  container : Handle
deriving DecidableEq, Repr

/-- Structure to hold components information (lines 516-520). -/
structure ContainerComponentInfo where
  lib : Int
  info : ComponentInfo
deriving DecidableEq, Repr

/-- Registry of section 3, made of the two fields of the header: the hash map
`m_activeComponents`, as the list of its bindings, and the list `m_activeComponentList`,
which preserves the order of activation. -/
structure Registry where
  /-- Data about all active components. -/
  m_activeComponents : List (Handle × ContainerComponentInfo)
  /-- Component list (preserves order of activation). -/
  m_activeComponentList : List Handle
deriving DecidableEq, Repr

namespace Registry

/-- Registry of a new container: nothing is active. -/
def empty : Registry := { m_activeComponents := [], m_activeComponentList := [] }

/-- Key set of the map. -/
def keys (r : Registry) : List Handle := r.m_activeComponents.map Prod.fst

/-- Modelled from the spec: `lookup(handle)` of section 4.1, whose body is not in the
header: returns the record or `NotFound`. -/
def lookup (r : Registry) (handle : Handle) : Except Error ContainerComponentInfo :=
  match r.m_activeComponents.find? (fun e => e.1 = handle) with
  | some e => .ok e.2
  | none => .error .NotFound

/-- Modelled from the spec: `register(handle, record)` of section 4.1, whose body is not in
the header: fails with `DuplicateHandle` if the handle is already present, otherwise
inserts into both the map and the order list. -/
def register (r : Registry) (handle : Handle) (record : ContainerComponentInfo) :
    Except Error Unit × Registry :=
  match r.lookup handle with
  | .ok _ => (.error .DuplicateHandle, r)
  | .error _ =>
    (.ok (), { m_activeComponents := r.m_activeComponents ++ [(handle, record)],
               m_activeComponentList := r.m_activeComponentList ++ [handle] })

/-- Modelled from the spec: `unregister(handle)` of section 4.1, whose body is not in the
header: fails with `NotFound` if the handle is absent, otherwise removes it from both the
map and the list. -/
def unregister (r : Registry) (handle : Handle) : Except Error Unit × Registry :=
  match r.lookup handle with
  | .error _ => (.error .NotFound, r)
  | .ok _ =>
    (.ok (), { m_activeComponents := r.m_activeComponents.filter (fun e => e.1 ≠ handle),
               m_activeComponentList := r.m_activeComponentList.filter (fun x => x ≠ handle) })

/-- Modelled from the spec: `snapshot(filter)` of section 4.1, whose body is not in the
header: all records if the filter is empty, else only the records whose handle is in the
filter. -/
def snapshot (r : Registry) (filter : List Handle) : List ContainerComponentInfo :=
  if filter = [] then r.m_activeComponents.map Prod.snd
  else (r.m_activeComponents.filter (fun e => e.1 ∈ filter)).map Prod.snd

/-- Invariant of section 3: the keys of the map are unique, the order list holds no handle
twice, and the key set of the map equals the set of handles in the order list. -/
def Consistent (r : Registry) : Prop :=
  r.keys.Nodup ∧ r.m_activeComponentList.Nodup ∧ ∀ h, h ∈ r.keys ↔ h ∈ r.m_activeComponentList

instance (r : Registry) : Decidable r.Consistent := by
  unfold Consistent
  have : Decidable (∀ h, h ∈ r.keys ↔ h ∈ r.m_activeComponentList) :=
    decidable_of_iff
      ((∀ h ∈ r.keys, h ∈ r.m_activeComponentList) ∧ (∀ h ∈ r.m_activeComponentList, h ∈ r.keys))
      ⟨fun ⟨a, b⟩ h => ⟨a h, b h⟩, fun f => ⟨fun h => (f h).1, fun h => (f h).2⟩⟩
  infer_instance

end Registry

/-- Modelled from the spec: the ShutdownOrder policy of section 3, whose code (in `done`)
is not in the header. The handles of the explicit order are taken first, in the given
order, each one out of the handles that remain; the handles that remain at the end follow
in their original order. -/
def orderedHandlesFrom : List Handle → List Handle → List Handle
  | remaining, [] => remaining
  | remaining, h :: explicitOrder =>
    if h ∈ remaining then h :: orderedHandlesFrom (remaining.erase h) explicitOrder
    else orderedHandlesFrom remaining explicitOrder

/-- Modelled from the spec: `orderedHandles(explicitOrder)` of section 4.1, whose body is
not in the header: the deactivation order of the active handles. -/
def Registry.orderedHandles (r : Registry) (explicitOrder : List Handle) : List Handle :=
  orderedHandlesFrom r.m_activeComponentList explicitOrder

/-- First occurrences of a list of handles, in order. -/
def firstOccurrences : List Handle → List Handle
  | [] => []
  | h :: t => h :: (firstOccurrences t).filter (fun x => x ≠ h)

/-- Teardown order in the words of the specification: the active handles of the shutdown
order first, in the given order, then the remaining active handles in activation order. -/
def specTeardownOrder (active shutdownOrder : List Handle) : List Handle :=
  firstOccurrences (shutdownOrder.filter (fun h => h ∈ active)) ++
    active.filter (fun h => h ∉ shutdownOrder)

/-- Modelled from the spec: what the Object Adapter does when asked to deactivate a
reference (section 4.3, step 2). -/
inductive AdapterOutcome where
  /-- Deactivated; no etherealize callback ran during the call. -/
  | deactivated
  /-- Deactivated, and the etherealize callback ran on the calling thread during the call. -/
  | etherealized
  /-- The adapter failed with `EtherealizeError`. -/
  | etherealizeError
deriving DecidableEq, Repr

/-- Modelled from the spec: the collaborators of section 6, which the header only names
(`LibraryManager`, `MACIServantManager`, the POAs, the CDB). `L` is the state of the
Library Loader, with its reference counts. -/
structure Collaborators (L Servant : Type) where
  /-- Loader `load(path)`: a library id and the loader with its count raised, or failure. -/
  load : L → CStr → Option (Int × L)
  /-- Loader `unload(libraryId)`: lowers the count and unloads at zero. -/
  unload : L → Int → L
  /-- Factory of the loaded module, called with handle, name and type. -/
  construct : Int → Handle → CStr → CStr → Option Servant
  /-- Configuration data for the name applied to the servant; `false` when it is missing
  or invalid. -/
  configure : CStr → Servant → Bool
  /-- Adapter `activate(servant)`: the remote reference, or failure. -/
  adapterActivate : Servant → Option Nat
  /-- Adapter `deactivate(reference)`. -/
  adapterDeactivate : Nat → AdapterOutcome

/-- State of the container that the engines work on. -/
structure Container (L : Type) where
  /-- Handle of the container. -/
  m_handle : Handle
  /-- Registry: `m_activeComponents` and `m_activeComponentList`. -/
  registry : Registry
  /-- Component shutdown order (given from the manager). -/
  m_componentShutdownOrder : List Handle
  /-- State of the Library Loader. -/
  loader : L

/-- Modelled from the spec: `set_component_shutdown_order` (declared at lines 339-345):
stores the order given by the manager. -/
def set_component_shutdown_order {L : Type} (c : Container L) (h : List Handle) :
    Container L :=
  { c with m_componentShutdownOrder := h }

/-- Modelled from the spec: `activate_component` (declared at lines 219-246), the
Activation Engine of section 4.2, steps 1 to 7. Every failure after the load gives the
loader reference back; the adapter keeps no state here, so that handing a reference back
to it on a failed registration leaves no mark. -/
def activate_component {L Servant : Type} (k : Collaborators L Servant) (c : Container L)
    (h : Handle) (name exe type : CStr) : Except Error ComponentInfo × Container L :=
  if h = 0 ∨ name = [] ∨ (c.registry.lookup h).isOk then (.error .DuplicateHandle, c)
  else
    match k.load c.loader exe with
    | none => (.error .LibraryLoadError, c)
    | some (lib, loader) =>
      match k.construct lib h name type with
      | none => (.error .ConstructionError, { c with loader := k.unload loader lib })
      | some servant =>
        if k.configure name servant = false then
          (.error .ConfigurationError, { c with loader := k.unload loader lib })
        else
          match k.adapterActivate servant with
          | none => (.error .AdapterActivationError, { c with loader := k.unload loader lib })
          | some reference =>
            let info : ComponentInfo :=
              { name := name, type := type, h := h, reference := reference,
                container := c.m_handle }
            match c.registry.register h { lib := lib, info := info } with
            | (.error _, _) =>
              (.error .DuplicateHandle, { c with loader := k.unload loader lib })
            | (.ok _, registry) => (.ok info, { c with registry := registry, loader := loader })

/-- Modelled from the spec: one handle of the Deactivation Engine of section 4.3, steps 1
to 4. The value is the new state and the handles torn down (none or this one). -/
def deactivateOne {L Servant : Type} (k : Collaborators L Servant) (c : Container L)
    (h : Handle) : Container L × List Handle :=
  match c.registry.lookup h with
  | .error _ => (c, [])
  | .ok record =>
    let registry := match k.adapterDeactivate record.info.reference with
      | .etherealized => (c.registry.unregister h).2
      | .deactivated => c.registry
      | .etherealizeError => c.registry
    let registry := (registry.unregister h).2
    ({ c with registry := registry, loader := k.unload c.loader record.lib }, [h])

/-- Modelled from the spec: the handles of a sequence one after the other, with the
teardown log. -/
def deactivateSeq {L Servant : Type} (k : Collaborators L Servant) :
    Container L → List Handle → Container L × List Handle
  | c, [] => (c, [])
  | c, h :: hs =>
    let (c1, log1) := deactivateOne k c h
    let (c2, log2) := deactivateSeq k c1 hs
    (c2, log1 ++ log2)

/-- Modelled from the spec: `deactivate_components` (declared at lines 248-259), the
Deactivation Engine of section 4.3: each handle given, in the order computed by the
ShutdownOrder policy. The value is the new state and the teardown log. -/
def deactivate_components {L Servant : Type} (k : Collaborators L Servant) (c : Container L)
    (h : List Handle) : Container L × List Handle :=
  deactivateSeq k c (orderedHandlesFrom h c.m_componentShutdownOrder)

/-- Modelled from the spec: the full deactivation of `done` (section 4.4): all active
components go through the Deactivation Engine. -/
def deactivateAll {L Servant : Type} (k : Collaborators L Servant) (c : Container L) :
    Container L × List Handle :=
  deactivate_components k c c.registry.m_activeComponentList

/-- Modelled from the spec: `get_component_info` (declared at lines 278-287), the snapshot
of section 4.1 projected to the `ComponentInfo` of each record. The value is the sequence
returned and the state after the call. -/
def get_component_info {L : Type} (c : Container L) (h : List Handle) :
    List ComponentInfo × Container L :=
  ((c.registry.snapshot h).map ContainerComponentInfo.info, c)

/-- Operations on the registry. -/
inductive RegistryOp where
  | register (handle : Handle) (record : ContainerComponentInfo)
  | unregister (handle : Handle)
deriving DecidableEq, Repr

/-- Registry together with a clock that counts the operations applied and, for each
handle, the time of the registration that made it active. -/
structure Timed where
  registry : Registry
  clock : Nat
  registeredAt : Handle → Option Nat

/-- One operation: the registry operation is applied; when a registration succeeds its
time is recorded, when an unregistration succeeds the time is forgotten. -/
def Timed.step (s : Timed) : RegistryOp → Timed
  | .register handle record =>
    match s.registry.register handle record with
    | (.ok _, r) =>
      { registry := r, clock := s.clock + 1,
        registeredAt := Function.update s.registeredAt handle (some s.clock) }
    | (.error _, r) => { registry := r, clock := s.clock + 1, registeredAt := s.registeredAt }
  | .unregister handle =>
    match s.registry.unregister handle with
    | (.ok _, r) =>
      { registry := r, clock := s.clock + 1,
        registeredAt := Function.update s.registeredAt handle none }
    | (.error _, r) => { registry := r, clock := s.clock + 1, registeredAt := s.registeredAt }

/-- Start: empty registry, clock at zero. -/
def Timed.start : Timed := { registry := Registry.empty, clock := 0, registeredAt := fun _ => none }

/-- Registry after a sequence of operations applied to the empty registry. -/
def runOps (ops : List RegistryOp) : Timed := ops.foldl Timed.step Timed.start

/-! ## Shapes, properties and example data used by the theorems -/

/-- Value of the `try` block and its handlers for a given reply of the Manager. -/
def tryValue {Obj T : Type} (env : Env Obj T) :
    Except Exn (Option Obj × Nat) → Except Exn (Option T)
  | .error e => catchClauses (.error e)
  | .ok (none, _) => catchClauses (.ok none)
  | .ok (some o, status) =>
    if status ≠ env.COMPONENT_ACTIVATED then catchClauses (.ok none)
    else catchClauses (env.narrow o)

/-- Narrowing calls of the `try` block for a given reply of the Manager. -/
def narrowCalls {Obj T : Type} (env : Env Obj T) :
    Except Exn (Option Obj × Nat) → List (Event Obj)
  | .error _ => []
  | .ok (none, _) => []
  | .ok (some o, status) => if status ≠ env.COMPONENT_ACTIVATED then [] else [.narrow o]

/-- Common shape of the three accessors after the null check: `call` is the Manager
operation used and `ev` the event that records it. -/
def resolveWith {Obj T : Type} (env : Env Obj T)
    (call : Handle → CStr → Bool → Except Exn (Option Obj × Nat))
    (ev : Handle → CStr → Bool → Event Obj) (curl : CStr) (fuel : Nat) (activate : Bool) :
    Run Obj T :=
  match waitForHandle env.fields fuel 0 with
  | none => { trace := List.replicate fuel .sleep, result := none }
  | some k =>
    { trace := List.replicate k .sleep ++
        (ev (env.fields (k + 1)).m_handle curl activate ::
          narrowCalls env (call (env.fields (k + 1)).m_handle curl activate)),
      result := some (tryValue env (call (env.fields (k + 1)).m_handle curl activate)) }

/-- Events that are calls of the Manager. -/
def Event.isManagerCall {Obj : Type} : Event Obj → Bool
  | .get_component _ _ _ => true
  | .get_service _ _ _ => true
  | .sleep => false
  | .narrow _ => false

/-- Handle of the event, for the calls of the Manager. -/
def Event.handle? {Obj : Type} : Event Obj → Option Handle
  | .get_component h _ _ => some h
  | .get_service h _ _ => some h
  | .sleep => none
  | .narrow _ => none

/-- Failure cases of a resolution, for a given reply of the Manager: the Manager raised,
returned nil, returned a status other than `COMPONENT_ACTIVATED`, or the narrowing failed
(nil) or raised. -/
def ResolutionFails {Obj T : Type} (env : Env Obj T) :
    Except Exn (Option Obj × Nat) → Prop
  | .error _ => True
  | .ok (none, _) => True
  | .ok (some o, status) =>
    status ≠ env.COMPONENT_ACTIVATED ∨ env.narrow o = .ok none ∨ ∃ e, env.narrow o = .error e

/-- Property of a run `r` of an accessor whose single Manager call is recorded as `call`
and answered by `reply`:
* the Manager is called exactly once, with `call`;
* if the reply is a non-nil `obj` with status `COMPONENT_ACTIVATED`, then `obj` is
  narrowed and the value of the narrowing is the result;
* if the reply is nil, or its status is not `COMPONENT_ACTIVATED`, the result is nil and
  nothing is narrowed;
* something is narrowed exactly when the reply is non-nil with status
  `COMPONENT_ACTIVATED`. -/
def ResolvesOnce {Obj T : Type} (env : Env Obj T) (call : Event Obj)
    (reply : Except Exn (Option Obj × Nat)) (r : Run Obj T) : Prop :=
  r.trace.filter Event.isManagerCall = [call] ∧
  (∀ o, reply = .ok (some o, env.COMPONENT_ACTIVATED) →
      r.trace = [call, .narrow o] ∧ ∀ t, env.narrow o = .ok t → r.result = some (.ok t)) ∧
  (∀ status, reply = .ok (none, status) → r.trace = [call] ∧ r.result = some (.ok none)) ∧
  (∀ o status, reply = .ok (some o, status) → status ≠ env.COMPONENT_ACTIVATED →
      r.trace = [call] ∧ r.result = some (.ok none)) ∧
  ((∃ o, Event.narrow o ∈ r.trace) ↔ ∃ o, reply = .ok (some o, env.COMPONENT_ACTIVATED))

/-- Property of a run `r` cut off after `fuel` loop tests, for an accessor that sends
`curl` to the Manager operation `call`:
* no exception leaves the accessor;
* once a look has read a non-zero handle the accessor has returned a value;
* in each failure case of the resolution that value is nil. -/
def ReturnsNilOnFailure {Obj T : Type} (env : Env Obj T) (fuel : Nat)
    (call : Handle → CStr → Bool → Except Exn (Option Obj × Nat)) (curl : CStr)
    (activate : Bool) (r : Run Obj T) : Prop :=
  (∀ e, r.result ≠ some (.error e)) ∧
  (∀ k, k < fuel → (env.fields k).m_handle ≠ 0 → ∃ t, r.result = some (.ok t)) ∧
  (∀ k, k < fuel → (env.fields k).m_handle ≠ 0 →
      (∀ j, j < k → (env.fields j).m_handle = 0) →
      ResolutionFails env (call (env.fields (k + 1)).m_handle curl activate) →
      r.result = some (.ok none))

/-- Example: the handle reads `0` at the first two looks and `7` from then on; the Manager
answers every call with object `1` and status `COMPONENT_ACTIVATED`; narrowing succeeds. -/
def lateEnv : Env Nat Nat :=
  { COMPONENT_ACTIVATED := 0,
    m_manager :=
      { get_component := fun _ _ _ => .ok (some 1, 0),
        get_service := fun _ _ _ => .ok (some 1, 0) },
    narrow := fun o => .ok (some o),
    fields := fun i => { m_handle := if i < 2 then 0 else 7, m_shutdown := false } }

/-- Example: the handle is `7` all along; the Manager answers `get_component` with object
`1` and status `COMPONENT_ACTIVATED` and raises on `get_service`; narrowing fails. -/
def readyEnv : Env Nat Nat :=
  { COMPONENT_ACTIVATED := 0,
    m_manager :=
      { get_component := fun _ _ _ => .ok (some 1, 0),
        get_service := fun _ _ _ => .error .corba },
    narrow := fun _ => .error .other,
    fields := fun _ => { m_handle := 7, m_shutdown := false } }

/-- Example: the handle reads `0` at the first two looks and `7` from then on; the two
operations of the Manager answer alike for handle `7` only: for any other handle
`get_service` raises while `get_component` answers. -/
def agreeAt7Env : Env Nat Nat :=
  { COMPONENT_ACTIVATED := 0,
    m_manager :=
      { get_component := fun _ _ _ => .ok (some 1, 0),
        get_service := fun h _ _ => if h = 7 then .ok (some 1, 0) else .error .corba },
    narrow := fun o => .ok (some o),
    fields := fun i => { m_handle := if i < 2 then 0 else 7, m_shutdown := false } }

/-- Example: the container is shutting down and its handle is never assigned. -/
def shutdownEnv : Env Nat Nat :=
  { COMPONENT_ACTIVATED := 0,
    m_manager :=
      { get_component := fun _ _ _ => .ok (some 1, 0),
        get_service := fun _ _ _ => .ok (some 1, 0) },
    narrow := fun o => .ok (some o),
    fields := fun _ => { m_handle := 0, m_shutdown := true } }

/-- Environment `env` with the shutdown flag replaced by `s`: look `i` reads `s i` for
`m_shutdown`; everything else is as in `env`. -/
def withShutdown {Obj T : Type} (env : Env Obj T) (s : Nat → Bool) : Env Obj T :=
  { env with fields := fun i => { m_handle := (env.fields i).m_handle, m_shutdown := s i } }

/-- Registry without the handle `h`: what a successful `unregister` leaves. -/
def Registry.remove (r : Registry) (h : Handle) : Registry :=
  { m_activeComponents := r.m_activeComponents.filter (fun e => e.1 ≠ h),
    m_activeComponentList := r.m_activeComponentList.filter (fun x => x ≠ h) }

/-- Registry without the handles of `hs`. -/
def Registry.removeAll (r : Registry) (hs : List Handle) : Registry :=
  { m_activeComponents := r.m_activeComponents.filter (fun e => e.1 ∉ hs),
    m_activeComponentList := r.m_activeComponentList.filter (fun x => x ∉ hs) }

/-- What holds of the state reached by the operations `ops`: the registry is consistent,
the clock counts the operations, the handles of the order list are those with a
registration time, every registration time is the position in `ops` of a registration of
that handle, and the order list is sorted by registration time. -/
def Timed.Inv (ops : List RegistryOp) (s : Timed) : Prop :=
  s.registry.Consistent ∧ s.clock = ops.length ∧
  (∀ h, h ∈ s.registry.m_activeComponentList ↔ ∃ t, s.registeredAt h = some t) ∧
  (∀ h t, s.registeredAt h = some t →
    t < s.clock ∧ ∃ record, ops[t]? = some (RegistryOp.register h record)) ∧
  s.registry.m_activeComponentList.Pairwise
    (fun a b => ∀ ta tb, s.registeredAt a = some ta → s.registeredAt b = some tb → ta < tb)

/-- Example record for handle `h` with reference `ref`. -/
def exampleRecord (h : Handle) (ref : Nat) : ContainerComponentInfo :=
  { lib := 1,
    info := { name := "C".toList, type := "T".toList, h := h, reference := ref, container := 7 } }

/-- Example registry with the handles 1, 2, 3, 4 active, activated in that order. -/
def exampleRegistry : Registry :=
  { m_activeComponents :=
      [(1, exampleRecord 1 11), (2, exampleRecord 2 12), (3, exampleRecord 3 13),
        (4, exampleRecord 4 14)],
    m_activeComponentList := [1, 2, 3, 4] }

/-- Example collaborators: loading, construction, configuration and activation succeed;
the loader state counts the loaded libraries. -/
def exampleCollaborators : Collaborators Nat Nat :=
  { load := fun l _ => some (1, l + 1),
    unload := fun l _ => l - 1,
    construct := fun _ h _ _ => some h,
    configure := fun _ _ => true,
    adapterActivate := fun servant => some (servant + 10),
    adapterDeactivate := fun ref => if ref = 12 then .etherealized else .deactivated }

/-- Example container: handle 7, the example registry, no shutdown order given yet. -/
def exampleContainer : Container Nat :=
  { m_handle := 7, registry := exampleRegistry, m_componentShutdownOrder := [],
    loader := 4 }

/-! ## Shutdown action and status -/

/-- Macro `CONTAINER_RELOAD` (line 41): 0 - reload the container. -/
def CONTAINER_RELOAD : Int := 0

/-- Macro `CONTAINER_REBOOT` (line 43): 1 - reboot the computer. -/
def CONTAINER_REBOOT : Int := 1

/-- Macro `CONTAINER_EXIT` (line 45): 2 - exit the container. -/
def CONTAINER_EXIT : Int := 2

/-- Fields of `ContainerImpl` that hold the outcome of a shutdown request; both are `int`
in the header. -/
structure ShutdownFields where
  /-- Status of the container, later used as the return value from the `main()` function. -/
  m_status : Int
  /-- Shutdown action. -/
  m_shutdownAction : Int
deriving DecidableEq, Repr

/-- Inline `int getStatus() { return m_status; }` (line 174). -/
def getStatus (c : ShutdownFields) : Int := c.m_status

/-- Inline `void setStatus(int status) { m_status = status; }` (line 176). -/
def setStatus (c : ShutdownFields) (status : Int) : ShutdownFields :=
  { c with m_status := status }

/-- Inline `int getShutdownAction() { return m_shutdownAction; }` (line 189). -/
def getShutdownAction (c : ShutdownFields) : Int := c.m_shutdownAction

/-- Inline `void setShutdownAction(int action) { m_shutdownAction=action; }` (line 193). -/
def setShutdownAction (c : ShutdownFields) (action : Int) : ShutdownFields :=
  { c with m_shutdownAction := action }

/-- Modelled from the spec: the body of `shutdown` (declared at lines 270-276) is not in
the header. Section 6 gives the operation an action code and exit-status bits, and the
doc comment of the declaration places them in the `CORBA::ULong` argument: bits 8 thru 15
denote the action, bits 0 thru 7 are the return value passed to the operating system.
Both are recorded through the setters of the header. -/
def shutdown (c : ShutdownFields) (action : Nat) : ShutdownFields :=
  let c := setShutdownAction c (((action >>> 8) &&& 0xFF : Nat) : Int)
  setStatus c ((action &&& 0xFF : Nat) : Int)

/-! ## Further shapes and properties used by the theorems -/

/-- Events that are sleeps of the wait loop. -/
def Event.isSleep {Obj : Type} : Event Obj → Bool
  | .sleep => true
  | .get_component _ _ _ => false
  | .get_service _ _ _ => false
  | .narrow _ => false

/-- Event with a call of `get_service` read as the same call of `get_component`. -/
def Event.asGetComponent {Obj : Type} : Event Obj → Event Obj
  | .get_service h p a => .get_component h p a
  | .get_component h p a => .get_component h p a
  | .sleep => .sleep
  | .narrow o => .narrow o

/-- Property of the runs `r fuel` of an accessor, cut off after `fuel` loop tests, given
the handle values `fields` read at the successive polls:
* if poll `k` is the first that reads a non-zero handle, the accessor is still waiting
  after any number of polls up to `k`, having slept once per poll, and has left the wait
  after more than `k` polls, with exactly `k` sleeps in its trace, all of them in front;
* if the handle is assigned on entry there is no sleep at all;
* if every poll reads `0`, then for every `n` the accessor is still waiting after `n`
  polls, having slept `n` times;
* a run that has left the wait has polled a non-zero handle. -/
def LeavesWaitAtFirstNonZero {Obj T : Type} (fields : Nat → ContainerFields)
    (r : Nat → Run Obj T) : Prop :=
  (∀ k, (fields k).m_handle ≠ 0 → (∀ j, j < k → (fields j).m_handle = 0) →
    (∀ fuel, fuel ≤ k →
      (r fuel).result = none ∧ (r fuel).trace = List.replicate fuel .sleep) ∧
    (∀ fuel, k < fuel →
      (r fuel).result ≠ none ∧
      ((r fuel).trace.filter Event.isSleep).length = k ∧
      ∃ rest, (r fuel).trace = List.replicate k .sleep ++ rest ∧
        ∀ e, e ∈ rest → e.isSleep = false)) ∧
  ((fields 0).m_handle ≠ 0 →
    ∀ fuel, 0 < fuel → ∀ e, e ∈ (r fuel).trace → e.isSleep = false) ∧
  ((∀ i, (fields i).m_handle = 0) →
    ∀ n, (r n).result = none ∧ (r n).trace = List.replicate n .sleep) ∧
  (∀ fuel, (r fuel).result ≠ none → ∃ k, k < fuel ∧ (fields k).m_handle ≠ 0)

/-- Example: the handle is `1` all along and the Manager knows one path only: it answers
a call for `path` with an activated object and any other call with nil. -/
def onePathEnv (path : CStr) : Env Unit Unit :=
  { COMPONENT_ACTIVATED := 0,
    m_manager :=
      { get_component := fun _ p _ => if p = path then .ok (some (), 0) else .ok (none, 0),
        get_service := fun _ p _ => if p = path then .ok (some (), 0) else .ok (none, 0) },
    narrow := fun _ => .ok (some ()),
    fields := fun _ => { m_handle := 1, m_shutdown := false } }

/-! ## Lemmas on strings and on the wait loop -/

theorem strncmp_eq_zero_iff (b : CStr) (hb : ∀ c ∈ b, c.toNat ≠ 0) :
    ∀ (n : Nat) (a : CStr), n ≤ b.length →
      (strncmp a b n = 0 ↔ a.take n = b.take n) := by
  induction b with
  | nil =>
    intro n a hn
    have : n = 0 := by simpa using hn
    subst this
    simp [strncmp]
  | cons c b ih =>
    intro n a hn
    cases n with
    | zero => simp [strncmp]
    | succ n =>
      cases a with
      | nil =>
        have hc : c.toNat ≠ 0 := hb c (List.mem_cons_self _ _)
        simp [strncmp]
        omega
      | cons x a =>
        have hn2 : n ≤ b.length := by simpa using hn
        by_cases hxc : x = c
        · subst hxc
          simp [strncmp, ih (fun c hc => hb c (List.mem_cons_of_mem _ hc)) n a hn2]
        · have hne : (x.toNat : Int) - (c.toNat : Int) ≠ 0 := by
            intro h
            apply hxc
            apply Char.ext
            apply UInt32.ext
            have : x.toNat = c.toNat := by omega
            simpa [Char.toNat, UInt32.toNat] using this
          simp [strncmp, hxc, hne]

theorem strncmp_curl_str (name : CStr) :
    strncmp name curl_str (strlen curl_str) = 0 ↔ name.take 7 = curl_str := by
  have h := strncmp_eq_zero_iff curl_str (by decide) 7 name (by decide)
  simpa [strlen, curl_str] using h

theorem get_object_curl_eq (name : CStr) (domain : Option CStr) :
    get_object_curl name domain =
      if name.take 7 = curl_str then name else curl_str ++ domain.getD [] ++ '/' :: name := by
  unfold get_object_curl
  by_cases h : name.take 7 = curl_str
  · simp [h, (strncmp_curl_str name).2 h]
  · have h2 : strncmp name curl_str (strlen curl_str) ≠ 0 := fun h0 =>
      h ((strncmp_curl_str name).1 h0)
    cases domain <;> simp [h, h2]

theorem waitForHandle_eq_none_iff (f : Nat → ContainerFields) :
    ∀ fuel i, waitForHandle f fuel i = none ↔
      ∀ j, i ≤ j → j < i + fuel → (f j).m_handle = 0 := by
  intro fuel
  induction fuel with
  | zero => intro i; simp [waitForHandle]; intro j h1 h2; omega
  | succ n ih =>
    intro i
    unfold waitForHandle
    by_cases h : (f i).m_handle = 0
    · rw [if_pos h, ih (i + 1)]
      constructor
      · intro hall j h1 h2
        by_cases hj : j = i
        · subst hj; exact h
        · exact hall j (by omega) (by omega)
      · intro hall j h1 h2
        exact hall j (by omega) (by omega)
    · rw [if_neg h]
      constructor
      · intro hh; cases hh
      · intro hall; exact absurd (hall i (le_refl _) (by omega)) h

theorem waitForHandle_eq_some_iff (f : Nat → ContainerFields) :
    ∀ fuel i k, waitForHandle f fuel i = some k ↔
      (i ≤ k ∧ k < i + fuel ∧ (f k).m_handle ≠ 0 ∧
        ∀ j, i ≤ j → j < k → (f j).m_handle = 0) := by
  intro fuel
  induction fuel with
  | zero => intro i k; simp [waitForHandle]; intro h1 h2; omega
  | succ n ih =>
    intro i k
    unfold waitForHandle
    by_cases h : (f i).m_handle = 0
    · rw [if_pos h, ih (i + 1) k]
      constructor
      · rintro ⟨h1, h2, h3, h4⟩
        refine ⟨by omega, by omega, h3, ?_⟩
        intro j hj1 hj2
        by_cases hj : j = i
        · subst hj; exact h
        · exact h4 j (by omega) hj2
      · rintro ⟨h1, h2, h3, h4⟩
        have hik : i ≠ k := by
          intro hik; subst hik; exact h3 h
        exact ⟨by omega, by omega, h3, fun j hj1 hj2 => h4 j (by omega) hj2⟩
    · rw [if_neg h]
      constructor
      · intro hh
        have hk : i = k := by simpa using hh
        subst hk
        exact ⟨le_refl _, by omega, h, fun j h1 h2 => by omega⟩
      · rintro ⟨h1, h2, h3, h4⟩
        by_cases hik : i = k
        · simp [hik]
        · exact absurd (h4 i (le_refl _) (by omega)) h

theorem get_object_some {Obj T : Type} (env : Env Obj T) (fuel : Nat) (name : CStr)
    (domain : Option CStr) (activate : Bool) :
    get_object env fuel (some name) domain activate =
      resolveWith env env.m_manager.get_component Event.get_component
        (get_object_curl name domain) fuel activate := by
  unfold get_object resolveWith
  cases waitForHandle env.fields fuel 0 with
  | none => rfl
  | some k =>
    simp only []
    cases hr : env.m_manager.get_component (env.fields (k + 1)).m_handle
        (get_object_curl name domain) activate with
    | error e => simp [tryValue, narrowCalls, hr]
    | ok v =>
      obtain ⟨obj, status⟩ := v
      cases obj with
      | none => simp [tryValue, narrowCalls, hr]
      | some o =>
        by_cases hs : status = env.COMPONENT_ACTIVATED <;> simp [tryValue, narrowCalls, hr, hs]

theorem getComponent_some {Obj T : Type} (env : Env Obj T) (fuel : Nat) (name : CStr)
    (domain : Option CStr) (activate : Bool) :
    getComponent env fuel (some name) domain activate =
      resolveWith env env.m_manager.get_component Event.get_component
        (getComponent_curl name domain) fuel activate := by
  unfold getComponent resolveWith
  cases waitForHandle env.fields fuel 0 with
  | none => rfl
  | some k =>
    simp only []
    cases hr : env.m_manager.get_component (env.fields (k + 1)).m_handle
        (getComponent_curl name domain) activate with
    | error e => simp [tryValue, narrowCalls, hr]
    | ok v =>
      obtain ⟨obj, status⟩ := v
      cases obj with
      | none => simp [tryValue, narrowCalls, hr]
      | some o =>
        by_cases hs : status = env.COMPONENT_ACTIVATED <;> simp [tryValue, narrowCalls, hr, hs]

theorem getService_some {Obj T : Type} (env : Env Obj T) (fuel : Nat) (name : CStr)
    (domain : Option CStr) (activate : Bool) :
    getService env fuel (some name) domain activate =
      resolveWith env env.m_manager.get_service Event.get_service
        (getService_curl name domain) fuel activate := by
  unfold getService resolveWith
  cases waitForHandle env.fields fuel 0 with
  | none => rfl
  | some k =>
    simp only []
    cases hr : env.m_manager.get_service (env.fields (k + 1)).m_handle
        (getService_curl name domain) activate with
    | error e => simp [tryValue, narrowCalls, hr]
    | ok v =>
      obtain ⟨obj, status⟩ := v
      cases obj with
      | none => simp [tryValue, narrowCalls, hr]
      | some o =>
        by_cases hs : status = env.COMPONENT_ACTIVATED <;> simp [tryValue, narrowCalls, hr, hs]

/-! ## Lemmas on the common shape of the accessors -/

theorem catchClauses_ok {T : Type} (x : Except Exn (Option T)) :
    ∃ t, catchClauses x = .ok t := by
  cases x with
  | ok t => exact ⟨t, rfl⟩
  | error e => cases e <;> exact ⟨none, rfl⟩

theorem tryValue_ok {Obj T : Type} (env : Env Obj T) (reply : Except Exn (Option Obj × Nat)) :
    ∃ t, tryValue env reply = .ok t := by
  cases reply with
  | error e => exact catchClauses_ok _
  | ok v =>
    obtain ⟨obj, status⟩ := v
    cases obj with
    | none => exact ⟨none, rfl⟩
    | some o =>
      by_cases hs : status = env.COMPONENT_ACTIVATED
      · obtain ⟨t, ht⟩ := catchClauses_ok (env.narrow o)
        exact ⟨t, by simp [tryValue, hs, ht]⟩
      · exact ⟨none, by simp [tryValue, hs, catchClauses]⟩

theorem tryValue_of_fails {Obj T : Type} (env : Env Obj T)
    (reply : Except Exn (Option Obj × Nat)) (h : ResolutionFails env reply) :
    tryValue env reply = .ok none := by
  cases reply with
  | error e => cases e <;> rfl
  | ok v =>
    obtain ⟨obj, status⟩ := v
    cases obj with
    | none => rfl
    | some o =>
      unfold tryValue
      by_cases hs : status = env.COMPONENT_ACTIVATED
      · rcases h with h | h | ⟨e, h⟩
        · exact absurd hs h
        · simp [hs, h, catchClauses]
        · cases e <;> simp [hs, h, catchClauses]
      · simp [hs, catchClauses]

theorem narrowCalls_filter {Obj T : Type} (env : Env Obj T)
    (reply : Except Exn (Option Obj × Nat)) :
    (narrowCalls env reply).filter Event.isManagerCall = [] := by
  cases reply with
  | error e => rfl
  | ok v =>
    obtain ⟨obj, status⟩ := v
    cases obj with
    | none => rfl
    | some o =>
      unfold narrowCalls
      split <;> simp [Event.isManagerCall]

theorem sleeps_filter {Obj : Type} (k : Nat) :
    (List.replicate k (Event.sleep : Event Obj)).filter Event.isManagerCall = [] := by
  induction k with
  | zero => rfl
  | succ n ih => simp [List.replicate_succ, Event.isManagerCall]

theorem resolveWith_result_none_iff {Obj T : Type} (env : Env Obj T)
    (call : Handle → CStr → Bool → Except Exn (Option Obj × Nat))
    (ev : Handle → CStr → Bool → Event Obj) (curl : CStr) (fuel : Nat) (activate : Bool) :
    (resolveWith env call ev curl fuel activate).result = none ↔
      ∀ i, i < fuel → (env.fields i).m_handle = 0 := by
  unfold resolveWith
  cases hw : waitForHandle env.fields fuel 0 with
  | none =>
    have h := (waitForHandle_eq_none_iff env.fields fuel 0).1 hw
    simp only [true_iff]
    intro i hi
    exact h i (Nat.zero_le _) (by omega)
  | some k =>
    obtain ⟨_, h2, h3, _⟩ := (waitForHandle_eq_some_iff env.fields fuel 0 k).1 hw
    simp only [false_iff, reduceCtorEq]
    intro hall
    exact h3 (hall k (by omega))

theorem resolveWith_of_none {Obj T : Type} (env : Env Obj T)
    (call : Handle → CStr → Bool → Except Exn (Option Obj × Nat))
    (ev : Handle → CStr → Bool → Event Obj) (curl : CStr) (fuel : Nat) (activate : Bool)
    (hw : waitForHandle env.fields fuel 0 = none) :
    resolveWith env call ev curl fuel activate =
      { trace := List.replicate fuel .sleep, result := none } := by
  unfold resolveWith
  rw [hw]

theorem resolveWith_of_some {Obj T : Type} (env : Env Obj T)
    (call : Handle → CStr → Bool → Except Exn (Option Obj × Nat))
    (ev : Handle → CStr → Bool → Event Obj) (curl : CStr) (fuel : Nat) (activate : Bool)
    (k : Nat) (hw : waitForHandle env.fields fuel 0 = some k) :
    resolveWith env call ev curl fuel activate =
      { trace := List.replicate k .sleep ++
          (ev (env.fields (k + 1)).m_handle curl activate ::
            narrowCalls env (call (env.fields (k + 1)).m_handle curl activate)),
        result := some (tryValue env (call (env.fields (k + 1)).m_handle curl activate)) } := by
  unfold resolveWith
  rw [hw]

theorem resolveWith_calls {Obj T : Type} (env : Env Obj T)
    (call : Handle → CStr → Bool → Except Exn (Option Obj × Nat))
    (ev : Handle → CStr → Bool → Event Obj)
    (hev : ∀ h p a, (ev h p a).isManagerCall = true)
    (curl : CStr) (fuel : Nat) (activate : Bool) (k : Nat)
    (hw : waitForHandle env.fields fuel 0 = some k) :
    (resolveWith env call ev curl fuel activate).trace.filter Event.isManagerCall =
      [ev (env.fields (k + 1)).m_handle curl activate] := by
  rw [resolveWith_of_some _ _ _ _ _ _ k hw]
  simp only [List.filter_append, sleeps_filter, List.nil_append, List.filter_cons, hev,
    if_true, narrowCalls_filter]

theorem waitForHandle_of_first (f : Nat → ContainerFields) (fuel k : Nat) (hk : k < fuel)
    (hne : (f k).m_handle ≠ 0) (hzero : ∀ j, j < k → (f j).m_handle = 0) :
    waitForHandle f fuel 0 = some k := by
  rw [waitForHandle_eq_some_iff]
  exact ⟨Nat.zero_le _, by omega, hne, fun j _ hj => hzero j hj⟩

theorem resolveWith_nil_on_failure {Obj T : Type} (env : Env Obj T)
    (call : Handle → CStr → Bool → Except Exn (Option Obj × Nat))
    (ev : Handle → CStr → Bool → Event Obj) (curl : CStr) (fuel : Nat) (activate : Bool) :
    ReturnsNilOnFailure env fuel call curl activate
      (resolveWith env call ev curl fuel activate) := by
  unfold ReturnsNilOnFailure resolveWith
  cases hw : waitForHandle env.fields fuel 0 with
  | none =>
    have h := (waitForHandle_eq_none_iff env.fields fuel 0).1 hw
    refine ⟨fun e => by simp, ?_, ?_⟩
    · intro k hk hne
      exact absurd (h k (Nat.zero_le _) (by omega)) hne
    · intro k hk hne
      exact absurd (h k (Nat.zero_le _) (by omega)) hne
  | some k =>
    obtain ⟨_, h2, h3, h4⟩ := (waitForHandle_eq_some_iff env.fields fuel 0 k).1 hw
    refine ⟨?_, ?_, ?_⟩
    · intro e
      obtain ⟨t, ht⟩ := tryValue_ok env (call (env.fields (k + 1)).m_handle curl activate)
      simp [ht]
    · intro _ _ _
      obtain ⟨t, ht⟩ := tryValue_ok env (call (env.fields (k + 1)).m_handle curl activate)
      exact ⟨t, by simp [ht]⟩
    · intro k2 hk2 hne hzero hfail
      have hkk : k2 = k := by
        rcases Nat.lt_trichotomy k2 k with hlt | heq | hgt
        · exact absurd (h4 k2 (Nat.zero_le _) hlt) hne
        · exact heq
        · exact absurd (hzero k hgt) h3
      subst hkk
      simp [tryValue_of_fails env _ hfail]

theorem resolveWith_resolves_once {Obj T : Type} (env : Env Obj T)
    (call : Handle → CStr → Bool → Except Exn (Option Obj × Nat))
    (ev : Handle → CStr → Bool → Event Obj)
    (hev : ∀ h p a, (ev h p a).isManagerCall = true ∧ ∀ o, ev h p a ≠ Event.narrow o)
    (curl : CStr) (fuel : Nat) (activate : Bool) (h : Handle)
    (hassigned : ∀ i, (env.fields i).m_handle = h) (h0 : h ≠ 0) (hfuel : 0 < fuel) :
    ResolvesOnce env (ev h curl activate) (call h curl activate)
      (resolveWith env call ev curl fuel activate) := by
  have hw : waitForHandle env.fields fuel 0 = some 0 := by
    rw [waitForHandle_eq_some_iff]
    refine ⟨le_refl _, by omega, by rw [hassigned]; exact h0, ?_⟩
    intro j h1 h2
    omega
  unfold ResolvesOnce resolveWith
  rw [hw]
  simp only [hassigned, List.replicate_zero, List.nil_append]
  refine ⟨?_, ?_, ?_, ?_, ?_⟩
  · simp [List.filter_cons, (hev _ _ _).1, narrowCalls_filter]
  · intro o ho
    rw [ho]
    refine ⟨by simp [narrowCalls], ?_⟩
    intro t ht
    simp [tryValue, ht, catchClauses]
  · intro status ho
    rw [ho]
    exact ⟨by simp [narrowCalls], by simp [tryValue, catchClauses]⟩
  · intro o status ho hs
    rw [ho]
    exact ⟨by simp [narrowCalls, hs], by simp [tryValue, catchClauses, hs]⟩
  · constructor
    · rintro ⟨o, ho⟩
      simp only [List.mem_cons] at ho
      rcases ho with ho | ho
      · exact absurd ho.symm ((hev _ _ _).2 o)
      · cases hr : call h curl activate with
        | error e => rw [hr] at ho; simp [narrowCalls] at ho
        | ok v =>
          obtain ⟨obj, status⟩ := v
          rw [hr] at ho
          cases obj with
          | none => simp [narrowCalls] at ho
          | some o2 =>
            by_cases hs : status = env.COMPONENT_ACTIVATED
            · exact ⟨o2, by rw [hs]⟩
            · simp [narrowCalls, hs] at ho
    · rintro ⟨o, ho⟩
      exact ⟨o, by rw [ho]; simp [narrowCalls]⟩

theorem get_component_event {Obj : Type} (h : Handle) (p : CStr) (a : Bool) :
    (Event.get_component h p a : Event Obj).isManagerCall = true ∧
      (Event.get_component h p a : Event Obj).handle? = some h ∧
      ∀ o, (Event.get_component h p a : Event Obj) ≠ Event.narrow o :=
  ⟨rfl, rfl, fun _ hh => by cases hh⟩

theorem get_service_event {Obj : Type} (h : Handle) (p : CStr) (a : Bool) :
    (Event.get_service h p a : Event Obj).isManagerCall = true ∧
      (Event.get_service h p a : Event Obj).handle? = some h ∧
      ∀ o, (Event.get_service h p a : Event Obj) ≠ Event.narrow o :=
  ⟨rfl, rfl, fun _ hh => by cases hh⟩

theorem waitForHandle_congr (f g : Nat → ContainerFields)
    (h : ∀ i, (f i).m_handle = (g i).m_handle) :
    ∀ fuel i, waitForHandle f fuel i = waitForHandle g fuel i := by
  intro fuel
  induction fuel with
  | zero => intro i; rfl
  | succ n ih => intro i; simp [waitForHandle, h i, ih (i + 1)]

theorem resolveWith_withShutdown {Obj T : Type} (env : Env Obj T) (s : Nat → Bool)
    (call : Handle → CStr → Bool → Except Exn (Option Obj × Nat))
    (ev : Handle → CStr → Bool → Event Obj) (curl : CStr) (fuel : Nat) (activate : Bool) :
    resolveWith (withShutdown env s) call ev curl fuel activate =
      resolveWith env call ev curl fuel activate := by
  have hw : waitForHandle (withShutdown env s).fields fuel 0 = waitForHandle env.fields fuel 0 :=
    waitForHandle_congr (withShutdown env s).fields env.fields (fun _ => rfl) fuel 0
  unfold resolveWith
  rw [hw]
  rfl

/-! ## The accessors: claims C1 to C5 -/

/-- C2: for every name (null or not), domain, activate flag and every behaviour of the
Manager call and of the narrowing, no exception leaves `get_object<T>`, `getComponent<T>`
or `getService<T>`. With a null name they return nil; with a non-null name they return a
value once a look has read a non-zero handle, and that value is nil whenever the Manager
raised, returned nil or a status other than `COMPONENT_ACTIVATED`, or the narrowing
failed or raised. -/
theorem C2_accessors_never_raise {Obj T : Type} (env : Env Obj T) (fuel : Nat)
    (domain : Option CStr) (activate : Bool) :
    ((get_object env fuel none domain activate).result = some (.ok none) ∧
      (getComponent env fuel none domain activate).result = some (.ok none) ∧
      (getService env fuel none domain activate).result = some (.ok none)) ∧
    ∀ name : CStr,
      ReturnsNilOnFailure env fuel env.m_manager.get_component
        (get_object_curl name domain) activate
        (get_object env fuel (some name) domain activate) ∧
      ReturnsNilOnFailure env fuel env.m_manager.get_component
        (getComponent_curl name domain) activate
        (getComponent env fuel (some name) domain activate) ∧
      ReturnsNilOnFailure env fuel env.m_manager.get_service
        (getService_curl name domain) activate
        (getService env fuel (some name) domain activate) := by
  refine ⟨⟨rfl, rfl, rfl⟩, ?_⟩
  intro name
  rw [get_object_some, getComponent_some, getService_some]
  exact ⟨resolveWith_nil_on_failure env _ _ _ fuel activate,
    resolveWith_nil_on_failure env _ _ _ fuel activate,
    resolveWith_nil_on_failure env _ _ _ fuel activate⟩

/-- Witness of C2: with the handle assigned, a Manager whose `get_service` raises a CORBA
exception and a narrowing that raises a non-CORBA exception, `getService<T>` and
`get_object<T>` both return nil. -/
theorem C2_accessors_never_raise_witness :
    (getService readyEnv 1 (some "LOG".toList) none true).result = some (.ok none) ∧
    (get_object readyEnv 1 (some "LOG".toList) none true).result = some (.ok none) :=
  ⟨((C2_accessors_never_raise readyEnv 1 none true).2 "LOG".toList).2.2.2.2 0 (by decide)
      (by decide) (by intro j hj; omega) (by simp [ResolutionFails, readyEnv]),
    ((C2_accessors_never_raise readyEnv 1 none true).2 "LOG".toList).1.2.2 0 (by decide)
      (by decide) (by intro j hj; omega) (by simp [ResolutionFails, readyEnv])⟩

/-- C3: with a non-null name and the handle assigned (every look reads the same non-zero
`h`), each accessor calls the Manager exactly once, with `h`, the path it built and the
activate flag of the caller; when the Manager returns a non-nil `obj` with status
`COMPONENT_ACTIVATED` the accessor narrows `obj` and returns the value of the narrowing;
when `obj` is nil or the status differs it returns nil without narrowing, whatever the
activate flag; and it narrows exactly in the first case. -/
theorem C3_accessors_resolve_once {Obj T : Type} (env : Env Obj T) (fuel : Nat)
    (name : CStr) (domain : Option CStr) (activate : Bool) (h : Handle)
    (hassigned : ∀ i, (env.fields i).m_handle = h) (h0 : h ≠ 0) (hfuel : 0 < fuel) :
    ResolvesOnce env (.get_component h (get_object_curl name domain) activate)
      (env.m_manager.get_component h (get_object_curl name domain) activate)
      (get_object env fuel (some name) domain activate) ∧
    ResolvesOnce env (.get_component h (getComponent_curl name domain) activate)
      (env.m_manager.get_component h (getComponent_curl name domain) activate)
      (getComponent env fuel (some name) domain activate) ∧
    ResolvesOnce env (.get_service h (getService_curl name domain) activate)
      (env.m_manager.get_service h (getService_curl name domain) activate)
      (getService env fuel (some name) domain activate) := by
  rw [get_object_some, getComponent_some, getService_some]
  exact ⟨resolveWith_resolves_once env _ Event.get_component
      (fun h p a => ⟨(get_component_event h p a).1, (get_component_event h p a).2.2⟩)
      _ fuel activate h hassigned h0 hfuel,
    resolveWith_resolves_once env _ Event.get_component
      (fun h p a => ⟨(get_component_event h p a).1, (get_component_event h p a).2.2⟩)
      _ fuel activate h hassigned h0 hfuel,
    resolveWith_resolves_once env _ Event.get_service
      (fun h p a => ⟨(get_service_event h p a).1, (get_service_event h p a).2.2⟩)
      _ fuel activate h hassigned h0 hfuel⟩

/-- Witness of C3: with handle `7` assigned and activate `false`, the three accessors
resolve `MOUNT1` with one Manager call each. -/
theorem C3_accessors_resolve_once_witness :
    (∀ i, (readyEnv.fields i).m_handle = 7) ∧ (7 : Handle) ≠ 0 ∧ 0 < 1 ∧
    (ResolvesOnce readyEnv (.get_component 7 (get_object_curl "MOUNT1".toList none) false)
        (readyEnv.m_manager.get_component 7 (get_object_curl "MOUNT1".toList none) false)
        (get_object readyEnv 1 (some "MOUNT1".toList) none false) ∧
      ResolvesOnce readyEnv (.get_component 7 (getComponent_curl "MOUNT1".toList none) false)
        (readyEnv.m_manager.get_component 7 (getComponent_curl "MOUNT1".toList none) false)
        (getComponent readyEnv 1 (some "MOUNT1".toList) none false) ∧
      ResolvesOnce readyEnv (.get_service 7 (getService_curl "MOUNT1".toList none) false)
        (readyEnv.m_manager.get_service 7 (getService_curl "MOUNT1".toList none) false)
        (getService readyEnv 1 (some "MOUNT1".toList) none false)) :=
  ⟨fun _ => rfl, by decide, by decide,
    C3_accessors_resolve_once readyEnv 1 "MOUNT1".toList none false 7 (fun _ => rfl)
      (by decide) (by decide)⟩

/-- C4: the path that `get_object<T>` sends to the Manager depends on name and domain
only and is the path of the specification: the name unchanged when its first seven
characters are `curl://`, otherwise `curl://`, the domain (empty when null), a slash and
the name. A name shorter than seven characters always gets the leading `curl://`. Every
Manager call of a run of `get_object<T>` carries that path, and a run that has left the
wait has sent it: its Manager calls are exactly one `get_component` with the handle read
for the call, that path and the activate flag. -/
theorem C4_get_object_path {Obj T : Type} (env : Env Obj T) (fuel : Nat) (name : CStr)
    (domain : Option CStr) (activate : Bool) :
    get_object_curl name domain = specPath name domain ∧
    (name.length < 7 →
      get_object_curl name domain =
        "curl://".toList ++ domain.getD [] ++ "/".toList ++ name) ∧
    (∀ e, e ∈ (get_object env fuel (some name) domain activate).trace →
      e.isManagerCall = true → ∃ h, e = .get_component h (specPath name domain) activate) ∧
    (∀ k, k < fuel → (env.fields k).m_handle ≠ 0 →
      (∀ j, j < k → (env.fields j).m_handle = 0) →
      (get_object env fuel (some name) domain activate).trace.filter Event.isManagerCall =
        [.get_component (env.fields (k + 1)).m_handle (specPath name domain) activate]) := by
  have hspec : get_object_curl name domain = specPath name domain := by
    rw [get_object_curl_eq]
    unfold specPath
    by_cases h : name.take 7 = curl_str
    · have h2 : name.take 7 = "curl://".toList := h
      rw [if_pos h, if_pos h2]
    · have h2 : ¬ name.take 7 = "curl://".toList := h
      rw [if_neg h, if_neg h2]
      simp [curl_str]
  refine ⟨hspec, ?_, ?_, ?_⟩
  · intro hlen
    rw [hspec]
    unfold specPath
    have hne : ¬ name.take 7 = "curl://".toList := by
      intro h
      have hl := congrArg List.length h
      simp at hl
      omega
    rw [if_neg hne]
  · intro e he hcall
    rw [get_object_some] at he
    rw [← hspec]
    unfold resolveWith at he
    cases hw : waitForHandle env.fields fuel 0 with
    | none =>
      rw [hw] at he
      have : e = Event.sleep := List.eq_of_mem_replicate he
      subst this
      simp [Event.isManagerCall] at hcall
    | some k =>
      rw [hw] at he
      simp only [List.mem_append, List.mem_cons] at he
      rcases he with he | he | he
      · have : e = Event.sleep := List.eq_of_mem_replicate he
        subst this
        simp [Event.isManagerCall] at hcall
      · exact ⟨_, he⟩
      · have hf := narrowCalls_filter env
          (env.m_manager.get_component (env.fields (k + 1)).m_handle
            (get_object_curl name domain) activate)
        have hmem : e ∈ (narrowCalls env
            (env.m_manager.get_component (env.fields (k + 1)).m_handle
              (get_object_curl name domain) activate)).filter Event.isManagerCall :=
          List.mem_filter.2 ⟨he, hcall⟩
        rw [hf] at hmem
        cases hmem
  · intro k hk hne hzero
    rw [get_object_some, ← hspec]
    exact resolveWith_calls env _ Event.get_component (fun _ _ _ => rfl) _ fuel activate k
      (waitForHandle_of_first env.fields fuel k hk hne hzero)

/-- Witness of C4: called with the strict prefix `curl:/` of `curl://` and a null domain,
`get_object<T>` sends `curl:///curl:/` to the Manager, in its only Manager call; the name
`curl://x` is sent unchanged whatever the domain, and the empty name gets the leading
`curl://`. -/
theorem C4_get_object_path_witness :
    (get_object readyEnv 1 (some "curl:/".toList) none true).trace.filter
        Event.isManagerCall =
      [.get_component 7 (specPath "curl:/".toList none) true] ∧
    specPath "curl:/".toList none = "curl:///curl:/".toList ∧
    (get_object readyEnv 1 (some "curl:/".toList) none true).trace =
      [.get_component 7 "curl:///curl:/".toList true, .narrow 1] ∧
    (get_object readyEnv 1 (some "curl://x".toList) (some "d".toList) false).trace =
      [.get_component 7 "curl://x".toList false, .narrow 1] ∧
    get_object_curl "".toList (some "d".toList) = "curl://d/".toList :=
  ⟨(C4_get_object_path readyEnv 1 "curl:/".toList none true).2.2.2 0 (by decide) (by decide)
      (by intro j hj; omega),
    by decide, by decide, by decide, by decide⟩

/-- Counterexample to C5: the container is shutting down at every look and its handle
stays `0`; whatever the number of loop tests, none of the three accessors has returned. -/
theorem C5_counterexample :
    (shutdownEnv.fields 0).m_shutdown = true ∧ (shutdownEnv.fields 0).m_handle = 0 ∧
    ¬ ∃ fuel,
      (get_object shutdownEnv fuel (some "MOUNT1".toList) none true).result ≠ none ∨
      (getComponent shutdownEnv fuel (some "MOUNT1".toList) none true).result ≠ none ∨
      (getService shutdownEnv fuel (some "MOUNT1".toList) none true).result ≠ none := by
  refine ⟨rfl, rfl, ?_⟩
  rintro ⟨fuel, h⟩
  have hz : ∀ i, i < fuel → (shutdownEnv.fields i).m_handle = 0 := fun _ _ => rfl
  rw [get_object_some, getComponent_some, getService_some] at h
  rcases h with h | h | h
  · exact h ((resolveWith_result_none_iff _ _ _ _ _ _).2 hz)
  · exact h ((resolveWith_result_none_iff _ _ _ _ _ _).2 hz)
  · exact h ((resolveWith_result_none_iff _ _ _ _ _ _).2 hz)

/-- C5 as amended: the wait of the three accessors is not cancellable. Each accessor is
still waiting exactly as long as every look at the handle read `0`, and its run is the
same whatever the shutdown flag reads at any look. -/
theorem C5_wait_ignores_shutdown {Obj T : Type} (env : Env Obj T) (fuel : Nat)
    (name : CStr) (domain : Option CStr) (activate : Bool) :
    (((get_object env fuel (some name) domain activate).result = none ↔
        ∀ i, i < fuel → (env.fields i).m_handle = 0) ∧
      ((getComponent env fuel (some name) domain activate).result = none ↔
        ∀ i, i < fuel → (env.fields i).m_handle = 0) ∧
      ((getService env fuel (some name) domain activate).result = none ↔
        ∀ i, i < fuel → (env.fields i).m_handle = 0)) ∧
    ∀ s : Nat → Bool,
      get_object (withShutdown env s) fuel (some name) domain activate =
        get_object env fuel (some name) domain activate ∧
      getComponent (withShutdown env s) fuel (some name) domain activate =
        getComponent env fuel (some name) domain activate ∧
      getService (withShutdown env s) fuel (some name) domain activate =
        getService env fuel (some name) domain activate := by
  simp only [get_object_some, getComponent_some, getService_some]
  refine ⟨⟨resolveWith_result_none_iff _ _ _ _ _ _, resolveWith_result_none_iff _ _ _ _ _ _,
    resolveWith_result_none_iff _ _ _ _ _ _⟩, ?_⟩
  intro s
  exact ⟨resolveWith_withShutdown env s _ _ _ fuel activate,
    resolveWith_withShutdown env s _ _ _ fuel activate,
    resolveWith_withShutdown env s _ _ _ fuel activate⟩

/-- Witness of C5 as amended: with the handle `0` at the first two looks, `get_object<T>`
is still waiting after two loop tests, also when the shutdown flag is raised throughout. -/
theorem C5_wait_ignores_shutdown_witness :
    (get_object (withShutdown lateEnv (fun _ => true)) 2 (some "MOUNT1".toList) none
      true).result = none := by
  rw [((C5_wait_ignores_shutdown lateEnv 2 "MOUNT1".toList none true).2 (fun _ => true)).1]
  exact (C5_wait_ignores_shutdown lateEnv 2 "MOUNT1".toList none true).1.1.2
    (by intro i hi; simp [lateEnv, hi])

/-! ## Lemmas on the registry -/

theorem Registry.lookup_eq_error_iff (r : Registry) (h : Handle) :
    r.lookup h = .error .NotFound ↔ h ∉ r.keys := by
  unfold Registry.lookup Registry.keys
  split
  · rename_i e hf
    have h1 := List.find?_some hf
    have h2 := List.mem_of_find?_eq_some hf
    have hmem : h ∈ r.m_activeComponents.map Prod.fst :=
      List.mem_map.2 ⟨e, h2, by simpa using h1⟩
    simp [hmem]
  · rename_i hf
    rw [List.find?_eq_none] at hf
    simp only [true_iff]
    intro hmem
    obtain ⟨e, he, rfl⟩ := List.mem_map.1 hmem
    exact hf e he (by simp)

theorem Registry.lookup_error (r : Registry) (h : Handle) (e : Error)
    (he : r.lookup h = .error e) : e = .NotFound := by
  unfold Registry.lookup at he
  split at he
  · cases he
  · cases he; rfl

theorem Registry.lookup_ok_mem (r : Registry) (h : Handle) (record : ContainerComponentInfo)
    (hl : r.lookup h = .ok record) : (h, record) ∈ r.m_activeComponents := by
  unfold Registry.lookup at hl
  split at hl
  · rename_i e hf
    have h1 := List.find?_some hf
    have h2 := List.mem_of_find?_eq_some hf
    have h3 : e.1 = h := by simpa using h1
    have h4 : e.2 = record := by cases hl; rfl
    rw [← h3, ← h4]
    exact h2
  · cases hl

theorem Registry.lookup_ok_iff_mem_keys (r : Registry) (h : Handle) :
    (∃ record, r.lookup h = .ok record) ↔ h ∈ r.keys := by
  constructor
  · rintro ⟨record, hl⟩
    by_contra hn
    rw [(r.lookup_eq_error_iff h).2 hn] at hl
    cases hl
  · intro hk
    cases hl : r.lookup h with
    | ok record => exact ⟨record, rfl⟩
    | error e =>
      have := r.lookup_error h e hl
      subst this
      exact absurd hk ((r.lookup_eq_error_iff h).1 hl)

theorem Registry.lookup_of_mem (r : Registry) (hk : r.keys.Nodup) (h : Handle)
    (record : ContainerComponentInfo) (hm : (h, record) ∈ r.m_activeComponents) :
    r.lookup h = .ok record := by
  have hkeys : h ∈ r.keys := List.mem_map.2 ⟨(h, record), hm, rfl⟩
  obtain ⟨rec2, h2⟩ := (r.lookup_ok_iff_mem_keys h).2 hkeys
  have hm2 := r.lookup_ok_mem h rec2 h2
  have := List.inj_on_of_nodup_map hk hm hm2 rfl
  cases this
  exact h2

theorem Registry.register_of_mem (r : Registry) (h : Handle) (record : ContainerComponentInfo)
    (hk : h ∈ r.keys) : r.register h record = (.error .DuplicateHandle, r) := by
  obtain ⟨old, ho⟩ := (r.lookup_ok_iff_mem_keys h).2 hk
  simp [Registry.register, ho]

theorem Registry.register_of_not_mem (r : Registry) (h : Handle)
    (record : ContainerComponentInfo) (hk : h ∉ r.keys) :
    r.register h record =
      (.ok (), { m_activeComponents := r.m_activeComponents ++ [(h, record)],
                 m_activeComponentList := r.m_activeComponentList ++ [h] }) := by
  have ho := (r.lookup_eq_error_iff h).2 hk
  simp [Registry.register, ho]

theorem Registry.unregister_of_mem (r : Registry) (h : Handle) (hk : h ∈ r.keys) :
    r.unregister h = (.ok (), r.remove h) := by
  obtain ⟨old, ho⟩ := (r.lookup_ok_iff_mem_keys h).2 hk
  simp [Registry.unregister, Registry.remove, ho]

theorem Registry.unregister_of_not_mem (r : Registry) (h : Handle) (hk : h ∉ r.keys) :
    r.unregister h = (.error .NotFound, r) := by
  have ho := (r.lookup_eq_error_iff h).2 hk
  simp [Registry.unregister, ho]

theorem Registry.keys_remove (r : Registry) (h : Handle) :
    (r.remove h).keys = r.keys.filter (fun x => x ≠ h) := by
  unfold Registry.remove Registry.keys
  rw [List.filter_map]
  rfl

theorem Registry.keys_removeAll (r : Registry) (hs : List Handle) :
    (r.removeAll hs).keys = r.keys.filter (fun x => x ∉ hs) := by
  unfold Registry.removeAll Registry.keys
  rw [List.filter_map]
  rfl

theorem Registry.remove_of_not_mem (r : Registry)
    (hkl : ∀ x, x ∈ r.keys ↔ x ∈ r.m_activeComponentList) (h : Handle) (hk : h ∉ r.keys) :
    r.remove h = r := by
  have hl : h ∉ r.m_activeComponentList := fun hm => hk ((hkl h).2 hm)
  unfold Registry.remove
  have h1 : r.m_activeComponents.filter (fun e => e.1 ≠ h) = r.m_activeComponents := by
    rw [List.filter_eq_self]
    intro e he
    have : e.1 ∈ r.keys := List.mem_map.2 ⟨e, he, rfl⟩
    have hne : e.1 ≠ h := fun hh => hk (hh ▸ this)
    simp [hne]
  have h2 : r.m_activeComponentList.filter (fun x => x ≠ h) = r.m_activeComponentList := by
    rw [List.filter_eq_self]
    intro x hx
    have hne : x ≠ h := fun hh => hl (hh ▸ hx)
    simp [hne]
  rw [h1, h2]

theorem Registry.consistent_remove (r : Registry) (hc : r.Consistent) (h : Handle) :
    (r.remove h).Consistent := by
  obtain ⟨h1, h2, h3⟩ := hc
  refine ⟨?_, ?_, ?_⟩
  · rw [Registry.keys_remove]; exact h1.filter _
  · exact h2.filter _
  · intro x
    rw [Registry.keys_remove]
    simp only [Registry.remove, List.mem_filter, h3 x]

theorem Registry.remove_removeAll (r : Registry) (h : Handle) (hs : List Handle) :
    (r.remove h).removeAll hs = r.removeAll (h :: hs) := by
  unfold Registry.remove Registry.removeAll
  simp only [List.filter_filter, List.mem_cons, not_or]
  congr 1
  · apply List.filter_congr
    intro e _
    by_cases h1 : e.1 = h <;> by_cases h2 : e.1 ∈ hs <;> simp [h1, h2]
  · apply List.filter_congr
    intro x _
    by_cases h1 : x = h <;> by_cases h2 : x ∈ hs <;> simp [h1, h2]

theorem Registry.removeAll_nil (r : Registry) : r.removeAll [] = r := by
  unfold Registry.removeAll
  simp

theorem Registry.removeAll_congr (r : Registry) (hs hs2 : List Handle)
    (h : ∀ x, x ∈ hs ↔ x ∈ hs2) : r.removeAll hs = r.removeAll hs2 := by
  unfold Registry.removeAll
  congr 1
  · apply List.filter_congr
    intro e _
    simp [h e.1]
  · apply List.filter_congr
    intro x _
    simp [h x]

theorem runOps_snoc (ops : List RegistryOp) (op : RegistryOp) :
    runOps (ops ++ [op]) = (runOps ops).step op := by
  simp [runOps, List.foldl_append]

theorem Timed.inv_start : Timed.Inv [] Timed.start := by
  refine ⟨⟨?_, ?_, ?_⟩, rfl, ?_, ?_, ?_⟩ <;>
    simp [Timed.start, Registry.empty, Registry.keys]

theorem getElem?_snoc_of_some {α : Type} (l : List α) (a b : α) (t : Nat)
    (h : l[t]? = some b) : (l ++ [a])[t]? = some b := by
  have ht : t < l.length := by
    by_contra hn
    rw [List.getElem?_eq_none (by omega)] at h
    cases h
  rw [List.getElem?_append_left ht]
  exact h

theorem Timed.inv_unchanged (ops : List RegistryOp) (op : RegistryOp) (s : Timed)
    (hinv : Timed.Inv ops s) :
    Timed.Inv (ops ++ [op])
      { registry := s.registry, clock := s.clock + 1, registeredAt := s.registeredAt } := by
  obtain ⟨hc, hclock, hmem, htime, hord⟩ := hinv
  refine ⟨hc, by simp [hclock], hmem, ?_, hord⟩
  intro h t ht
  obtain ⟨h1, record, h2⟩ := htime h t ht
  exact ⟨Nat.lt_succ_of_lt h1, record, getElem?_snoc_of_some ops op _ t h2⟩

theorem Timed.inv_step (ops : List RegistryOp) (op : RegistryOp) (s : Timed)
    (hinv : Timed.Inv ops s) : Timed.Inv (ops ++ [op]) (s.step op) := by
  have hinv0 := hinv
  obtain ⟨hc, hclock, hmem, htime, hord⟩ := hinv
  obtain ⟨hk, hl, hkl⟩ := hc
  cases op with
  | register h record =>
    by_cases hin : h ∈ s.registry.keys
    · simp only [Timed.step, Registry.register_of_mem _ _ _ hin]
      exact Timed.inv_unchanged ops _ s hinv0
    · simp only [Timed.step, Registry.register_of_not_mem _ _ _ hin]
      have hnl : h ∉ s.registry.m_activeComponentList := fun hm => hin ((hkl h).2 hm)
      have hnone : s.registeredAt h = none := by
        cases hr : s.registeredAt h with
        | none => rfl
        | some t => exact absurd ((hmem h).2 ⟨t, hr⟩) hnl
      refine ⟨⟨?_, ?_, ?_⟩, by simp [hclock], ?_, ?_, ?_⟩
      · simp only [Registry.keys, List.map_append, List.map_cons, List.map_nil]
        rw [List.nodup_append]
        refine ⟨hk, List.nodup_singleton _, ?_⟩
        intro x hx hx2
        have : x = h := by simpa using hx2
        subst this
        exact hin hx
      · rw [List.nodup_append]
        refine ⟨hl, List.nodup_singleton _, ?_⟩
        intro x hx hx2
        have : x = h := by simpa using hx2
        subst this
        exact hnl hx
      · intro x
        simp only [Registry.keys, List.map_append, List.map_cons, List.map_nil,
          List.mem_append, List.mem_singleton]
        have := hkl x
        simp only [Registry.keys] at this
        rw [this]
      · intro x
        simp only [List.mem_append, List.mem_singleton, Function.update_apply]
        by_cases hx : x = h
        · simp [hx]
        · simp [hx, hmem x]
      · intro x t ht
        simp only [Function.update_apply] at ht
        by_cases hx : x = h
        · rw [if_pos hx] at ht
          have htc : s.clock = t := Option.some.inj ht
          subst hx
          refine ⟨(by show t < s.clock + 1; omega), record, ?_⟩
          rw [← htc, hclock]
          simp
        · rw [if_neg hx] at ht
          obtain ⟨h1, r2, h2⟩ := htime x t ht
          exact ⟨Nat.lt_succ_of_lt h1, r2, getElem?_snoc_of_some ops _ _ t h2⟩
      · rw [List.pairwise_append]
        refine ⟨?_, List.pairwise_singleton _ _, ?_⟩
        · refine List.Pairwise.imp_of_mem ?_ hord
          intro a b ha hb hab ta tb hta htb
          have hah : a ≠ h := fun hh => hnl (hh ▸ ha)
          have hbh : b ≠ h := fun hh => hnl (hh ▸ hb)
          simp only [Function.update_apply, if_neg hah] at hta
          simp only [Function.update_apply, if_neg hbh] at htb
          exact hab ta tb hta htb
        · intro a ha b hb ta tb hta htb
          have hbh : b = h := by simpa using hb
          have hah : a ≠ h := fun hh => hnl (hh ▸ ha)
          simp only [Function.update_apply, if_neg hah] at hta
          simp only [Function.update_apply, if_pos hbh] at htb
          have := (htime a ta hta).1
          have htc : s.clock = tb := Option.some.inj htb
          omega
  | unregister h =>
    by_cases hin : h ∈ s.registry.keys
    · simp only [Timed.step, Registry.unregister_of_mem _ _ hin]
      refine ⟨Registry.consistent_remove _ ⟨hk, hl, hkl⟩ h, by simp [hclock], ?_, ?_, ?_⟩
      · intro x
        simp only [Registry.remove, List.mem_filter, Function.update_apply]
        by_cases hx : x = h
        · simp [hx]
        · simp [hx, hmem x]
      · intro x t ht
        simp only [Function.update_apply] at ht
        by_cases hx : x = h
        · rw [if_pos hx] at ht
          cases ht
        · rw [if_neg hx] at ht
          obtain ⟨h1, r2, h2⟩ := htime x t ht
          exact ⟨Nat.lt_succ_of_lt h1, r2, getElem?_snoc_of_some ops _ _ t h2⟩
      · simp only [Registry.remove]
        refine List.Pairwise.imp_of_mem ?_ (hord.filter _)
        intro a b ha hb hab ta tb hta htb
        have hah : a ≠ h := by
          have := (List.mem_filter.1 ha).2
          simpa using this
        have hbh : b ≠ h := by
          have := (List.mem_filter.1 hb).2
          simpa using this
        simp only [Function.update_apply, if_neg hah] at hta
        simp only [Function.update_apply, if_neg hbh] at htb
        exact hab ta tb hta htb
    · simp only [Timed.step, Registry.unregister_of_not_mem _ _ hin]
      exact Timed.inv_unchanged ops _ s hinv0

theorem runOps_inv (ops : List RegistryOp) : Timed.Inv ops (runOps ops) := by
  induction ops using List.reverseRecOn with
  | nil => exact Timed.inv_start
  | append_singleton l a ih =>
    rw [runOps_snoc]
    exact Timed.inv_step l a _ ih

/-! ## Lemmas on the teardown order and on the Deactivation Engine -/

theorem orderedHandlesFrom_perm :
    ∀ (S L : List Handle), (orderedHandlesFrom L S).Perm L := by
  intro S
  induction S with
  | nil => intro L; exact List.Perm.refl _
  | cons h S ih =>
    intro L
    unfold orderedHandlesFrom
    by_cases hm : h ∈ L
    · rw [if_pos hm]
      exact ((ih (L.erase h)).cons h).trans (List.perm_cons_erase hm).symm
    · rw [if_neg hm]
      exact ih L

theorem firstOccurrences_filter (p : Handle → Bool) :
    ∀ l : List Handle, firstOccurrences (l.filter p) = (firstOccurrences l).filter p := by
  intro l
  induction l with
  | nil => rfl
  | cons a t ih =>
    by_cases hp : p a = true
    · rw [List.filter_cons_of_pos hp]
      simp only [firstOccurrences]
      rw [List.filter_cons_of_pos hp, ih, List.filter_filter, List.filter_filter]
      congr 1
      apply List.filter_congr
      intro x _
      exact Bool.and_comm _ _
    · rw [List.filter_cons_of_neg hp]
      simp only [firstOccurrences]
      rw [List.filter_cons_of_neg hp, ih, List.filter_filter]
      apply List.filter_congr
      intro x _
      by_cases hx : x = a
      · subst hx
        simp [hp]
      · simp [hx]

theorem firstOccurrences_of_nodup :
    ∀ l : List Handle, l.Nodup → firstOccurrences l = l := by
  intro l
  induction l with
  | nil => intro _; rfl
  | cons a t ih =>
    intro hn
    obtain ⟨ha, ht⟩ := List.nodup_cons.1 hn
    simp only [firstOccurrences, ih ht]
    congr 1
    rw [List.filter_eq_self]
    intro x hx
    have : x ≠ a := fun hh => ha (hh ▸ hx)
    simp [this]

theorem orderedHandlesFrom_eq_spec :
    ∀ (S L : List Handle), L.Nodup → orderedHandlesFrom L S = specTeardownOrder L S := by
  intro S
  induction S with
  | nil =>
    intro L _
    simp [orderedHandlesFrom, specTeardownOrder, firstOccurrences]
  | cons h S ih =>
    intro L hL
    unfold orderedHandlesFrom
    by_cases hm : h ∈ L
    · rw [if_pos hm, ih (L.erase h) (hL.erase h)]
      unfold specTeardownOrder
      have h1 : S.filter (fun x => x ∈ L.erase h) =
          (S.filter (fun x => x ∈ L)).filter (fun x => x ≠ h) := by
        rw [List.filter_filter]
        apply List.filter_congr
        intro x _
        by_cases hx : x = h <;> by_cases hxl : x ∈ L <;> simp [hL.mem_erase_iff, hx, hxl]
      have h2 : (L.erase h).filter (fun x => x ∉ S) = L.filter (fun x => x ∉ h :: S) := by
        rw [hL.erase_eq_filter, List.filter_filter]
        apply List.filter_congr
        intro x _
        by_cases hx : x = h <;> by_cases hxs : x ∈ S <;> simp [hx, hxs]
      rw [h1, h2, firstOccurrences_filter]
      simp [List.filter_cons, hm, firstOccurrences]
    · rw [if_neg hm, ih L hL]
      unfold specTeardownOrder
      have h1 : (h :: S).filter (fun x => x ∈ L) = S.filter (fun x => x ∈ L) := by
        simp [List.filter_cons, hm]
      have h2 : L.filter (fun x => x ∉ h :: S) = L.filter (fun x => x ∉ S) := by
        apply List.filter_congr
        intro x hx
        have : x ≠ h := fun hh => hm (hh ▸ hx)
        simp [this]
      rw [h1, h2]

theorem deactivateOne_registry {L Servant : Type} (k : Collaborators L Servant)
    (c : Container L) (h : Handle)
    (hkl : ∀ x, x ∈ c.registry.keys ↔ x ∈ c.registry.m_activeComponentList) :
    (deactivateOne k c h).1.registry = c.registry.remove h := by
  unfold deactivateOne
  cases hl : c.registry.lookup h with
  | error e =>
    have := c.registry.lookup_error h e hl
    subst this
    have hk := (c.registry.lookup_eq_error_iff h).1 hl
    simp only
    exact (c.registry.remove_of_not_mem hkl h hk).symm
  | ok record =>
    have hk : h ∈ c.registry.keys := (c.registry.lookup_ok_iff_mem_keys h).1 ⟨record, hl⟩
    have hnot : h ∉ (c.registry.remove h).keys := by
      rw [Registry.keys_remove]
      simp
    simp only
    cases k.adapterDeactivate record.info.reference with
    | deactivated => simp only [Registry.unregister_of_mem _ _ hk]
    | etherealizeError => simp only [Registry.unregister_of_mem _ _ hk]
    | etherealized =>
      simp only [Registry.unregister_of_mem _ _ hk, Registry.unregister_of_not_mem _ _ hnot]

theorem deactivateOne_log {L Servant : Type} (k : Collaborators L Servant)
    (c : Container L) (h : Handle) :
    (deactivateOne k c h).2 = if h ∈ c.registry.keys then [h] else [] := by
  unfold deactivateOne
  cases hl : c.registry.lookup h with
  | error e =>
    have := c.registry.lookup_error h e hl
    subst this
    have hk := (c.registry.lookup_eq_error_iff h).1 hl
    simp [hk]
  | ok record =>
    have hk : h ∈ c.registry.keys := (c.registry.lookup_ok_iff_mem_keys h).1 ⟨record, hl⟩
    simp [hk]

theorem deactivateSeq_registry {L Servant : Type} (k : Collaborators L Servant) :
    ∀ (seq : List Handle) (c : Container L), c.registry.Consistent →
      (deactivateSeq k c seq).1.registry = c.registry.removeAll seq := by
  intro seq
  induction seq with
  | nil => intro c _; simp [deactivateSeq, Registry.removeAll_nil]
  | cons h seq ih =>
    intro c hc
    have h1 := deactivateOne_registry k c h hc.2.2
    have hc1 : (deactivateOne k c h).1.registry.Consistent := by
      rw [h1]; exact c.registry.consistent_remove hc h
    simp only [deactivateSeq]
    rw [ih _ hc1, h1, Registry.remove_removeAll]

theorem deactivateSeq_log {L Servant : Type} (k : Collaborators L Servant) :
    ∀ (seq : List Handle) (c : Container L), c.registry.Consistent → seq.Nodup →
      (∀ h, h ∈ seq → h ∈ c.registry.keys) → (deactivateSeq k c seq).2 = seq := by
  intro seq
  induction seq with
  | nil => intro c _ _ _; rfl
  | cons h seq ih =>
    intro c hc hn hmem
    obtain ⟨hh, hn2⟩ := List.nodup_cons.1 hn
    have h1 := deactivateOne_registry k c h hc.2.2
    have hc1 : (deactivateOne k c h).1.registry.Consistent := by
      rw [h1]; exact c.registry.consistent_remove hc h
    have hmem1 : ∀ x, x ∈ seq → x ∈ (deactivateOne k c h).1.registry.keys := by
      intro x hx
      rw [h1, Registry.keys_remove, List.mem_filter]
      have : x ≠ h := fun hxh => hh (hxh ▸ hx)
      exact ⟨hmem x (List.mem_cons_of_mem _ hx), by simp [this]⟩
    simp only [deactivateSeq]
    rw [ih _ hc1 hn2 hmem1, deactivateOne_log, if_pos (hmem h (List.mem_cons_self _ _))]
    rfl

theorem Registry.lookup_removeAll (r : Registry) (hs : List Handle) (h : Handle) :
    (r.removeAll hs).lookup h = if h ∈ hs then .error .NotFound else r.lookup h := by
  have key : (r.m_activeComponents.filter (fun e => e.1 ∉ hs)).find? (fun e => e.1 = h) =
      if h ∈ hs then none else r.m_activeComponents.find? (fun e => e.1 = h) := by
    rw [List.find?_filter]
    by_cases hh : h ∈ hs
    · rw [if_pos hh, List.find?_eq_none]
      intro x _
      by_cases hx : x.1 = h
      · simp [hx, hh]
      · simp [hx]
    · rw [if_neg hh]
      congr 1
      funext e
      by_cases heh : e.1 = h
      · simp [heh, hh]
      · simp [heh]
  unfold Registry.lookup Registry.removeAll
  simp only [key]
  by_cases hh : h ∈ hs
  · simp [hh]
  · simp [hh]

/-! ## The registry: claims C6 to C10 -/

/-- C6: for every list `L` of distinct active handles in activation order and every
shutdown order `S`, which may omit active handles and may hold handles that are not active
or repeated, the computed teardown sequence is a permutation of `L` without repetition:
the active handles of `S` in the order of `S` (each at its first occurrence), followed by
the handles of `L` that are not in `S`, in the order of `L`. When `S` has no repetition
the sequence is the active part of `S` followed by the rest of `L`. The full deactivation
of a container whose consistent registry lists `L` and whose shutdown order is `S` tears
the components down in exactly that sequence and leaves the registry empty. -/
theorem C6_teardown_order {Ld Servant : Type} (k : Collaborators Ld Servant)
    (L S : List Handle) (hL : L.Nodup) :
    (orderedHandlesFrom L S).Perm L ∧
    (orderedHandlesFrom L S).Nodup ∧
    orderedHandlesFrom L S = specTeardownOrder L S ∧
    (S.Nodup →
      orderedHandlesFrom L S =
        S.filter (fun h => h ∈ L) ++ L.filter (fun h => h ∉ S)) ∧
    (∀ c : Container Ld, c.registry.Consistent → c.registry.m_activeComponentList = L →
      c.m_componentShutdownOrder = S →
      c.registry.orderedHandles S = orderedHandlesFrom L S ∧
      (deactivateAll k c).2 = orderedHandlesFrom L S ∧
      (deactivateAll k c).1.registry = Registry.empty) := by
  have hperm := orderedHandlesFrom_perm S L
  have hnodup : (orderedHandlesFrom L S).Nodup := (hperm.nodup_iff).2 hL
  refine ⟨hperm, hnodup, orderedHandlesFrom_eq_spec S L hL, ?_, ?_⟩
  · intro hS
    rw [orderedHandlesFrom_eq_spec S L hL]
    unfold specTeardownOrder
    rw [firstOccurrences_of_nodup _ (hS.filter _)]
  · intro c hc hlist horder
    refine ⟨by simp [Registry.orderedHandles, hlist], ?_, ?_⟩
    · unfold deactivateAll deactivate_components
      rw [hlist, horder]
      apply deactivateSeq_log k _ c hc hnodup
      intro h hh
      rw [hc.2.2 h, hlist]
      exact hperm.mem_iff.1 hh
    · unfold deactivateAll deactivate_components
      rw [hlist, horder, deactivateSeq_registry k _ c hc]
      unfold Registry.removeAll Registry.empty
      have h1 : c.registry.m_activeComponents.filter
          (fun e => e.1 ∉ orderedHandlesFrom L S) = [] := by
        rw [List.filter_eq_nil_iff]
        intro e he
        have hk : e.1 ∈ c.registry.keys := List.mem_map.2 ⟨e, he, rfl⟩
        have hl : e.1 ∈ L := hlist ▸ (hc.2.2 e.1).1 hk
        simp [hperm.mem_iff.2 hl]
      have h2 : c.registry.m_activeComponentList.filter
          (fun x => x ∉ orderedHandlesFrom L S) = [] := by
        rw [List.filter_eq_nil_iff]
        intro x hx
        have hl : x ∈ L := hlist ▸ hx
        simp [hperm.mem_iff.2 hl]
      rw [h1, h2]

/-- Witness of C6: with the handles 1, 2, 3, 4 active and the shutdown order 3, 1 the
teardown sequence is 3, 1, 2, 4, also when the shutdown order repeats 3 and names the
handle 9 that is not active; after `set_component_shutdown_order` with 3, 1 the full
deactivation of the example container tears the components down in that sequence. -/
theorem C6_teardown_order_witness :
    [1, 2, 3, 4].Nodup ∧
    orderedHandlesFrom [1, 2, 3, 4] [3, 1] = [3, 1, 2, 4] ∧
    orderedHandlesFrom [1, 2, 3, 4] [3, 9, 3, 1] = [3, 1, 2, 4] ∧
    (deactivateAll exampleCollaborators
      (set_component_shutdown_order exampleContainer [3, 1])).2 = [3, 1, 2, 4] := by
  have h := C6_teardown_order exampleCollaborators [1, 2, 3, 4] [3, 1] (by decide)
  refine ⟨by decide, by decide, by decide, ?_⟩
  rw [(h.2.2.2.2 (set_component_shutdown_order exampleContainer [3, 1]) (by decide) rfl
    rfl).2.1]
  decide

/-- C7: starting from the empty registry, after every sequence of register and unregister
operations, successful or failing, the key set of the map `m_activeComponents` equals the
set of handles of the list `m_activeComponentList`, neither holds a handle twice, the
handles of the list are those made active by a registration of the sequence that no later
unregistration undid, and the list is sorted by the time of that registration. -/
theorem C7_registry_invariant (ops : List RegistryOp) :
    (∀ h, h ∈ (runOps ops).registry.keys ↔ h ∈ (runOps ops).registry.m_activeComponentList) ∧
    (runOps ops).registry.m_activeComponentList.Nodup ∧
    (runOps ops).registry.keys.Nodup ∧
    (∀ h, h ∈ (runOps ops).registry.m_activeComponentList ↔
      ∃ t, (runOps ops).registeredAt h = some t) ∧
    (∀ h t, (runOps ops).registeredAt h = some t →
      ∃ record, ops[t]? = some (RegistryOp.register h record)) ∧
    (runOps ops).registry.m_activeComponentList.Pairwise
      (fun a b => ∀ ta tb, (runOps ops).registeredAt a = some ta →
        (runOps ops).registeredAt b = some tb → ta < tb) := by
  obtain ⟨⟨hk, hl, hkl⟩, _, hmem, htime, hord⟩ := runOps_inv ops
  exact ⟨hkl, hl, hk, hmem, fun h t ht => (htime h t ht).2, hord⟩

/-- C8: registering a handle that is already active fails with `DuplicateHandle` and
returns the registry as it was, so that the map, the order list and the record found for
the handle are unchanged; so does `activate_component`, which returns the whole container
state as it was. Registering a handle that is not present succeeds, appends the binding to
the map and the handle to the end of the order list, makes the record the one found for
the handle, and leaves the record found for every other handle as it was. -/
theorem C8_register_duplicate {L Servant : Type} (k : Collaborators L Servant)
    (c : Container L) (r : Registry) (h : Handle) (record : ContainerComponentInfo)
    (name exe type : CStr) :
    (∀ old, r.lookup h = .ok old →
      r.register h record = (.error .DuplicateHandle, r) ∧
      (r.register h record).2.lookup h = .ok old) ∧
    (∀ old, c.registry.lookup h = .ok old →
      activate_component k c h name exe type = (.error .DuplicateHandle, c)) ∧
    (r.lookup h = .error .NotFound →
      (r.register h record).1 = .ok () ∧
      (r.register h record).2.m_activeComponents = r.m_activeComponents ++ [(h, record)] ∧
      (r.register h record).2.m_activeComponentList = r.m_activeComponentList ++ [h] ∧
      (r.register h record).2.lookup h = .ok record ∧
      ∀ h2, h2 ≠ h → (r.register h record).2.lookup h2 = r.lookup h2) := by
  refine ⟨?_, ?_, ?_⟩
  · intro old hold
    have hk : h ∈ r.keys := (r.lookup_ok_iff_mem_keys h).1 ⟨old, hold⟩
    rw [Registry.register_of_mem r h record hk]
    exact ⟨rfl, hold⟩
  · intro old hold
    simp [activate_component, hold, Except.isOk, Except.toBool]
  · intro hnf
    have hk : h ∉ r.keys := (r.lookup_eq_error_iff h).1 hnf
    rw [Registry.register_of_not_mem r h record hk]
    refine ⟨rfl, rfl, rfl, ?_, ?_⟩
    · have hfind : r.m_activeComponents.find? (fun e => decide (e.1 = h)) = none := by
        rw [List.find?_eq_none]
        intro e he hh
        exact hk (List.mem_map.2 ⟨e, he, by simpa using hh⟩)
      simp [Registry.lookup, List.find?_append, hfind]
    · intro h2 hne
      simp only [Registry.lookup, List.find?_append]
      cases hf : r.m_activeComponents.find? (fun e => decide (e.1 = h2)) with
      | some e => simp
      | none => simp [List.find?_cons, hne.symm]

/-- Witness of C8: in the example registry handle 2 is active; registering it again fails
and leaves the registry as it was, while registering the new handle 9 appends it. -/
theorem C8_register_duplicate_witness :
    exampleRegistry.register 2 (exampleRecord 2 99) = (.error .DuplicateHandle, exampleRegistry) ∧
    (activate_component exampleCollaborators exampleContainer 2 "C".toList "lib".toList
      "T".toList).2.registry = exampleRegistry ∧
    (exampleRegistry.register 9 (exampleRecord 9 19)).2.m_activeComponentList = [1, 2, 3, 4, 9] :=
  ⟨((C8_register_duplicate exampleCollaborators exampleContainer exampleRegistry 2
      (exampleRecord 2 99) "C".toList "lib".toList "T".toList).1 (exampleRecord 2 12)
      rfl).1,
    by decide, by decide⟩

/-- C9: for every consistent registry state and every handle sequence `hs`,
`deactivate_components(hs)` leaves in the order list exactly the handles that are not in
`hs`, in their order, and in the map exactly their bindings; afterwards a handle of `hs`
is not found and every other handle is found with the record it had. With `hs` empty the
whole state is unchanged and nothing is torn down, and a handle of `hs` that is not active
makes no difference to the registry that results. -/
theorem C9_deactivate_components_frame {L Servant : Type} (k : Collaborators L Servant)
    (c : Container L) (hs : List Handle) (hc : c.registry.Consistent) :
    (deactivate_components k c hs).1.registry.m_activeComponentList =
      c.registry.m_activeComponentList.filter (fun x => x ∉ hs) ∧
    (deactivate_components k c hs).1.registry.m_activeComponents =
      c.registry.m_activeComponents.filter (fun e => e.1 ∉ hs) ∧
    (∀ h, h ∈ hs → (deactivate_components k c hs).1.registry.lookup h = .error .NotFound) ∧
    (∀ h, h ∉ hs →
      (deactivate_components k c hs).1.registry.lookup h = c.registry.lookup h) ∧
    deactivate_components k c [] = (c, []) ∧
    (∀ h, h ∉ c.registry.keys →
      (deactivate_components k c (h :: hs)).1.registry =
        (deactivate_components k c hs).1.registry) := by
  have hreg : ∀ l : List Handle,
      (deactivate_components k c l).1.registry = c.registry.removeAll l := by
    intro l
    unfold deactivate_components
    rw [deactivateSeq_registry k _ c hc]
    exact c.registry.removeAll_congr _ _
      (fun x => (orderedHandlesFrom_perm c.m_componentShutdownOrder l).mem_iff)
  refine ⟨by rw [hreg]; rfl, by rw [hreg]; rfl, ?_, ?_, ?_, ?_⟩
  · intro h hh
    rw [hreg, Registry.lookup_removeAll, if_pos hh]
  · intro h hh
    rw [hreg, Registry.lookup_removeAll, if_neg hh]
  · unfold deactivate_components
    have : orderedHandlesFrom [] c.m_componentShutdownOrder = [] :=
      List.Perm.eq_nil (orderedHandlesFrom_perm c.m_componentShutdownOrder [])
    rw [this]
    rfl
  · intro h hh
    rw [hreg, hreg, ← Registry.remove_removeAll, c.registry.remove_of_not_mem hc.2.2 h hh]

/-- Witness of C9: deactivating the handles 3, 9 and 2 of the example container, of which
9 is not active, leaves the handles 1 and 4 in their order. -/
theorem C9_deactivate_components_frame_witness :
    exampleContainer.registry.Consistent ∧
    (deactivate_components exampleCollaborators exampleContainer
      [3, 9, 2]).1.registry.m_activeComponentList = [1, 4] := by
  have h := C9_deactivate_components_frame exampleCollaborators exampleContainer [3, 9, 2]
    (by decide)
  refine ⟨by decide, ?_⟩
  rw [h.1]
  decide

/-- C10: for every consistent registry state and every handle sequence `hs`,
`get_component_info(hs)` leaves the container state as it is. With `hs` empty it returns
the `ComponentInfo` of every active component, one for each active handle. Otherwise it
returns exactly the `ComponentInfo` of the records found for the handles of `hs`, one for
each of the distinct handles of `hs` that are active and none for the others. -/
theorem C10_get_component_info {L : Type} (c : Container L) (hs : List Handle)
    (hc : c.registry.Consistent) :
    (get_component_info c hs).2 = c ∧
    (hs = [] →
      (∀ info, info ∈ (get_component_info c hs).1 ↔
        ∃ h record, c.registry.lookup h = .ok record ∧ record.info = info) ∧
      (get_component_info c hs).1.length = c.registry.m_activeComponentList.length) ∧
    (hs ≠ [] →
      (∀ info, info ∈ (get_component_info c hs).1 ↔
        ∃ h, h ∈ hs ∧ ∃ record, c.registry.lookup h = .ok record ∧ record.info = info) ∧
      (get_component_info c hs).1.length =
        (hs.dedup.filter (fun h => h ∈ c.registry.m_activeComponentList)).length) := by
  obtain ⟨hk, hl, hkl⟩ := hc
  refine ⟨rfl, ?_, ?_⟩
  · intro hnil
    subst hnil
    simp only [get_component_info, Registry.snapshot, if_true, List.length_map]
    constructor
    · intro info
      simp only [List.mem_map]
      constructor
      · rintro ⟨record, ⟨e, he, rfl⟩, rfl⟩
        exact ⟨e.1, e.2, c.registry.lookup_of_mem hk e.1 e.2 he, rfl⟩
      · rintro ⟨h, record, hlook, rfl⟩
        exact ⟨record, ⟨(h, record), c.registry.lookup_ok_mem h record hlook, rfl⟩, rfl⟩
    · have hp : c.registry.keys.Perm c.registry.m_activeComponentList :=
        (List.perm_ext_iff_of_nodup hk hl).2 hkl
      have := hp.length_eq
      simpa [Registry.keys] using this
  · intro hne
    simp only [get_component_info, Registry.snapshot, if_neg hne, List.length_map]
    constructor
    · intro info
      simp only [List.mem_map, List.mem_filter]
      constructor
      · rintro ⟨record, ⟨e, ⟨he, hin⟩, rfl⟩, rfl⟩
        exact ⟨e.1, by simpa using hin, e.2, c.registry.lookup_of_mem hk e.1 e.2 he, rfl⟩
      · rintro ⟨h, hh, record, hlook, rfl⟩
        exact ⟨record, ⟨(h, record), ⟨c.registry.lookup_ok_mem h record hlook, by simpa using hh⟩,
          rfl⟩, rfl⟩
    · have hlen : (c.registry.m_activeComponents.filter (fun e => e.1 ∈ hs)).length =
          (c.registry.keys.filter (fun x => x ∈ hs)).length := by
        unfold Registry.keys
        rw [List.filter_map, List.length_map]
        rfl
      rw [hlen]
      apply List.Perm.length_eq
      rw [List.perm_ext_iff_of_nodup (hk.filter _) ((List.nodup_dedup hs).filter _)]
      intro x
      simp only [List.mem_filter, List.mem_dedup, decide_eq_true_eq]
      rw [hkl x]
      exact And.comm

/-- Witness of C10: asked for the handles 3, 9 and 3 again, the example container returns
one `ComponentInfo`, that of handle 3; asked for no handle it returns all four. -/
theorem C10_get_component_info_witness :
    exampleContainer.registry.Consistent ∧
    (get_component_info exampleContainer [3, 9, 3]).1 = [(exampleRecord 3 13).info] ∧
    (get_component_info exampleContainer []).1.length = 4 := by
  have h := C10_get_component_info exampleContainer [] (by decide)
  refine ⟨by decide, by decide, ?_⟩
  rw [(h.2.1 rfl).2]
  decide

/-! ## Claims C11 to C16 -/

theorem shutdown_eq (c : ShutdownFields) (action : Nat) :
    shutdown c action =
      { m_status := ((action % 2 ^ 8 : Nat) : Int),
        m_shutdownAction := ((action / 2 ^ 8 % 2 ^ 8 : Nat) : Int) } := by
  have h255 : (0xFF : Nat) = 2 ^ 8 - 1 := by norm_num
  simp only [shutdown, setStatus, setShutdownAction, h255, Nat.and_pow_two_sub_one_eq_mod,
    Nat.shiftRight_eq_div_pow]

/-- C11: for every action word passed to `shutdown`, in particular every 32-bit one, the
shutdown action read back by `getShutdownAction` is the number made of bits 8 through 15
of the word, which is `CONTAINER_RELOAD` when those bits are 0, `CONTAINER_REBOOT` when
they are 1 and `CONTAINER_EXIT` when they are 2, and the status read back by `getStatus`
is the number made of bits 0 through 7 of the word, a value from 0 to 255. -/
theorem C11_shutdown_action_bits (c : ShutdownFields) (action : Nat) :
    getShutdownAction (shutdown c action) = ((action / 2 ^ 8 % 2 ^ 8 : Nat) : Int) ∧
    getStatus (shutdown c action) = ((action % 2 ^ 8 : Nat) : Int) ∧
    (∀ i, (action / 2 ^ 8 % 2 ^ 8).testBit i = (decide (i < 8) && action.testBit (8 + i))) ∧
    (∀ i, (action % 2 ^ 8).testBit i = (decide (i < 8) && action.testBit i)) ∧
    (0 ≤ getStatus (shutdown c action) ∧ getStatus (shutdown c action) ≤ 255) ∧
    (0 ≤ getShutdownAction (shutdown c action) ∧
      getShutdownAction (shutdown c action) ≤ 255) ∧
    (getShutdownAction (shutdown c action) = CONTAINER_RELOAD ↔ action / 2 ^ 8 % 2 ^ 8 = 0) ∧
    (getShutdownAction (shutdown c action) = CONTAINER_REBOOT ↔ action / 2 ^ 8 % 2 ^ 8 = 1) ∧
    (getShutdownAction (shutdown c action) = CONTAINER_EXIT ↔ action / 2 ^ 8 % 2 ^ 8 = 2) := by
  have h1 : action / 2 ^ 8 % 2 ^ 8 < 2 ^ 8 := Nat.mod_lt _ (by norm_num)
  have h2 : action % 2 ^ 8 < 2 ^ 8 := Nat.mod_lt _ (by norm_num)
  rw [shutdown_eq]
  simp only [getShutdownAction, getStatus, CONTAINER_RELOAD, CONTAINER_REBOOT, CONTAINER_EXIT]
  refine ⟨trivial, trivial, ?_, ?_, ⟨by omega, by omega⟩, ⟨by omega, by omega⟩, ?_, ?_, ?_⟩
  · intro i
    rw [Nat.testBit_mod_two_pow, ← Nat.shiftRight_eq_div_pow, Nat.testBit_shiftRight]
  · intro i
    rw [Nat.testBit_mod_two_pow]
  · omega
  · omega
  · omega

/-- Witness of C11: the action word `0x0205` records the action `CONTAINER_EXIT` and the
status 5; a word with bits above bit 15 set, `0xABCD0103`, records `CONTAINER_REBOOT` and
the status 3. -/
theorem C11_shutdown_action_bits_witness :
    getShutdownAction (shutdown { m_status := 0, m_shutdownAction := 0 } 0x0205) =
      CONTAINER_EXIT ∧
    getStatus (shutdown { m_status := 0, m_shutdownAction := 0 } 0x0205) = 5 ∧
    getShutdownAction (shutdown { m_status := 0, m_shutdownAction := 0 } 0xABCD0103) =
      CONTAINER_REBOOT ∧
    getStatus (shutdown { m_status := 0, m_shutdownAction := 0 } 0xABCD0103) = 3 :=
  ⟨(C11_shutdown_action_bits { m_status := 0, m_shutdownAction := 0 } 0x0205).2.2.2.2.2.2.2.2.2
      (by decide),
    by decide, by decide, by decide⟩

/-- C13: with a null name, `get_object<T>`, `getComponent<T>` and `getService<T>` return
nil for every domain, activate flag and handle value, without one loop test, one sleep or
one call of the Manager: the null check comes before the wait. -/
theorem C13_null_name_returns_nil {Obj T : Type} (env : Env Obj T) (fuel : Nat)
    (domain : Option CStr) (activate : Bool) :
    ((get_object env fuel none domain activate).result = some (.ok none) ∧
      (get_object env fuel none domain activate).trace = []) ∧
    ((getComponent env fuel none domain activate).result = some (.ok none) ∧
      (getComponent env fuel none domain activate).trace = []) ∧
    ((getService env fuel none domain activate).result = some (.ok none) ∧
      (getService env fuel none domain activate).trace = []) := by
  refine ⟨⟨?_, ?_⟩, ⟨?_, ?_⟩, ⟨?_, ?_⟩⟩
  · simp only [get_object]
  · simp only [get_object]
  · simp only [getComponent]
  · simp only [getComponent]
  · simp only [getService]
  · simp only [getService]

/-- Witness of C13: with the handle never assigned and not a single loop test allowed,
`get_object<T>` called with a null name has returned nil, while called with a name it is
waiting. -/
theorem C13_null_name_returns_nil_witness :
    (shutdownEnv.fields 0).m_handle = 0 ∧
    (get_object shutdownEnv 0 none (some "d".toList) true).result = some (.ok none) ∧
    (get_object shutdownEnv 0 (some "MOUNT1".toList) (some "d".toList) true).result = none :=
  ⟨rfl, (C13_null_name_returns_nil shutdownEnv 0 (some "d".toList) true).1.1, rfl⟩

theorem get_object_curl_take (name : CStr) (domain : Option CStr) :
    (get_object_curl name domain).take 7 = curl_str := by
  rw [get_object_curl_eq]
  by_cases h : name.take 7 = curl_str
  · rw [if_pos h]
    exact h
  · rw [if_neg h]
    simp [curl_str]

/-- C16: path construction in `get_object<T>` is idempotent: for every name and all
domains `d1` and `d2`, null or not, the path built from the path of `(name, d1)` and `d2`
is the path of `(name, d1)`, because the first seven characters of every path built are
`curl://`. -/
theorem C16_get_object_path_idempotent (name : CStr) (d1 d2 : Option CStr) :
    get_object_curl (get_object_curl name d1) d2 = get_object_curl name d1 ∧
    (get_object_curl name d1).take 7 = "curl://".toList := by
  have h := get_object_curl_take name d1
  refine ⟨?_, h⟩
  rw [get_object_curl_eq (get_object_curl name d1) d2, if_pos h]

/-- Witness of C16: the path built from `MOUNT1` in domain `d` is `curl://d/MOUNT1`, and
building a path from it again, with or without a domain, gives it back. -/
theorem C16_get_object_path_idempotent_witness :
    get_object_curl "MOUNT1".toList (some "d".toList) = "curl://d/MOUNT1".toList ∧
    get_object_curl "curl://d/MOUNT1".toList (some "e".toList) = "curl://d/MOUNT1".toList ∧
    get_object_curl (get_object_curl "MOUNT1".toList (some "d".toList)) none =
      get_object_curl "MOUNT1".toList (some "d".toList) :=
  ⟨by decide, by decide,
    (C16_get_object_path_idempotent "MOUNT1".toList (some "d".toList) none).1⟩

theorem narrowCalls_isSleep {Obj T : Type} (env : Env Obj T)
    (reply : Except Exn (Option Obj × Nat)) :
    ∀ e ∈ narrowCalls env reply, e.isSleep = false := by
  cases reply with
  | error e => simp [narrowCalls]
  | ok v =>
    obtain ⟨obj, status⟩ := v
    cases obj with
    | none => simp [narrowCalls]
    | some o =>
      unfold narrowCalls
      split <;> simp [Event.isSleep]

theorem narrowCalls_map {Obj T : Type} (env : Env Obj T)
    (reply : Except Exn (Option Obj × Nat)) :
    (narrowCalls env reply).map Event.asGetComponent = narrowCalls env reply := by
  cases reply with
  | error e => simp [narrowCalls]
  | ok v =>
    obtain ⟨obj, status⟩ := v
    cases obj with
    | none => simp [narrowCalls]
    | some o =>
      by_cases hs : status = env.COMPONENT_ACTIVATED <;>
        simp [narrowCalls, hs, Event.asGetComponent]

theorem sleeps_isSleep {Obj : Type} (k : Nat) :
    (List.replicate k (Event.sleep : Event Obj)).filter Event.isSleep =
      List.replicate k Event.sleep := by
  rw [List.filter_eq_self]
  intro e he
  rw [List.eq_of_mem_replicate he]
  rfl

theorem resolveWith_sleeps {Obj T : Type} (env : Env Obj T)
    (call : Handle → CStr → Bool → Except Exn (Option Obj × Nat))
    (ev : Handle → CStr → Bool → Event Obj) (hev : ∀ h p a, (ev h p a).isSleep = false)
    (curl : CStr) (fuel : Nat) (activate : Bool) :
    (resolveWith env call ev curl fuel activate).trace.filter Event.isSleep =
      List.replicate ((waitForHandle env.fields fuel 0).getD fuel) .sleep := by
  cases hw : waitForHandle env.fields fuel 0 with
  | none =>
    rw [resolveWith_of_none env call ev curl fuel activate hw]
    exact sleeps_isSleep fuel
  | some k =>
    rw [resolveWith_of_some env call ev curl fuel activate k hw]
    have hn : (narrowCalls env (call (env.fields (k + 1)).m_handle curl activate)).filter
        Event.isSleep = [] := by
      rw [List.filter_eq_nil_iff]
      intro e he
      simp [narrowCalls_isSleep env _ e he]
    simp only [List.filter_append, sleeps_isSleep, List.filter_cons, hev, hn, Option.getD_some]
    simp

theorem resolveWith_leaves_wait {Obj T : Type} (env : Env Obj T)
    (call : Handle → CStr → Bool → Except Exn (Option Obj × Nat))
    (ev : Handle → CStr → Bool → Event Obj) (hev : ∀ h p a, (ev h p a).isSleep = false)
    (curl : CStr) (activate : Bool) :
    LeavesWaitAtFirstNonZero env.fields
      (fun fuel => resolveWith env call ev curl fuel activate) := by
  refine ⟨?_, ?_, ?_, ?_⟩
  · intro k hk hzero
    constructor
    · intro fuel hfuel
      have hw : waitForHandle env.fields fuel 0 = none := by
        rw [waitForHandle_eq_none_iff]
        intro j _ hj
        exact hzero j (by omega)
      simp only [resolveWith_of_none env call ev curl fuel activate hw, and_self]
    · intro fuel hfuel
      have hw : waitForHandle env.fields fuel 0 = some k := by
        rw [waitForHandle_eq_some_iff]
        exact ⟨Nat.zero_le _, by omega, hk, fun j _ hj => hzero j hj⟩
      refine ⟨?_, ?_, ?_⟩
      · simp only [resolveWith_of_some env call ev curl fuel activate k hw]
        simp
      · rw [resolveWith_sleeps env call ev hev, hw]
        simp
      · simp only [resolveWith_of_some env call ev curl fuel activate k hw]
        refine ⟨_, rfl, ?_⟩
        intro e he
        rcases List.mem_cons.1 he with he | he
        · rw [he]; exact hev _ _ _
        · exact narrowCalls_isSleep env _ e he
  · intro h0 fuel hfuel e he
    have hw : waitForHandle env.fields fuel 0 = some 0 := by
      rw [waitForHandle_eq_some_iff]
      exact ⟨le_refl _, by omega, h0, fun j h1 h2 => by omega⟩
    simp only [resolveWith_of_some env call ev curl fuel activate 0 hw, List.replicate_zero,
      List.nil_append] at he
    rcases List.mem_cons.1 he with he | he
    · rw [he]; exact hev _ _ _
    · exact narrowCalls_isSleep env _ e he
  · intro hall n
    have hw : waitForHandle env.fields n 0 = none := by
      rw [waitForHandle_eq_none_iff]
      intro j _ _
      exact hall j
    simp only [resolveWith_of_none env call ev curl n activate hw, and_self]
  · intro fuel hne
    by_contra hcon
    apply hne
    rw [resolveWith_result_none_iff]
    intro i hi
    by_contra hi0
    exact hcon ⟨i, hi, hi0⟩

/-- C12: the wait of `get_object<T>`, `getComponent<T>` and `getService<T>` has no exit
other than a poll that reads a non-zero handle. If poll `k` is the first to read a
non-zero handle, the accessor is still waiting after every number of polls up to `k` and
has left the wait after more, with exactly `k` sleeps, all before the Manager call; with
the handle assigned on entry it does not sleep; and if every poll reads `0`, then for
every `n` it is still waiting after `n` polls: it never returns. -/
theorem C12_wait_is_unbounded {Obj T : Type} (env : Env Obj T) (name : CStr)
    (domain : Option CStr) (activate : Bool) :
    LeavesWaitAtFirstNonZero env.fields
      (fun fuel => get_object env fuel (some name) domain activate) ∧
    LeavesWaitAtFirstNonZero env.fields
      (fun fuel => getComponent env fuel (some name) domain activate) ∧
    LeavesWaitAtFirstNonZero env.fields
      (fun fuel => getService env fuel (some name) domain activate) := by
  simp only [get_object_some, getComponent_some, getService_some]
  exact ⟨resolveWith_leaves_wait env _ Event.get_component (fun _ _ _ => rfl) _ activate,
    resolveWith_leaves_wait env _ Event.get_component (fun _ _ _ => rfl) _ activate,
    resolveWith_leaves_wait env _ Event.get_service (fun _ _ _ => rfl) _ activate⟩

/-- Witness of C12: the handle reads `0` at polls 0 and 1 and `7` at poll 2. After two
polls `get_object<T>` is still waiting; after three, and after ten, it has left the wait
with two sleeps in its trace. With the handle never assigned it is still waiting after a
thousand polls. -/
theorem C12_wait_is_unbounded_witness :
    (get_object lateEnv 2 (some "MOUNT1".toList) none true).result = none ∧
    ((get_object lateEnv 3 (some "MOUNT1".toList) none true).result ≠ none ∧
      ((get_object lateEnv 3 (some "MOUNT1".toList) none true).trace.filter
        Event.isSleep).length = 2) ∧
    ((get_object lateEnv 10 (some "MOUNT1".toList) none true).trace.filter
      Event.isSleep).length = 2 ∧
    (get_object shutdownEnv 1000 (some "MOUNT1".toList) none true).result = none := by
  have h := (C12_wait_is_unbounded lateEnv "MOUNT1".toList none true).1.1 2 (by decide)
    (by intro j hj; simp [lateEnv, hj])
  have h2 := (C12_wait_is_unbounded shutdownEnv "MOUNT1".toList none true).1.2.2.1
    (fun _ => rfl) 1000
  exact ⟨(h.1 2 (le_refl _)).1, ⟨(h.2 3 (by decide)).1, (h.2 3 (by decide)).2.1⟩,
    (h.2 10 (by decide)).2.1, h2.1⟩

theorem getComponent_curl_eq (name : CStr) (domain : Option CStr) :
    getComponent_curl name domain = curl_str ++ domain.getD [] ++ '/' :: name := by
  cases domain <;> simp [getComponent_curl, curl_str]

theorem getComponent_curl_ne_name (name : CStr) (domain : Option CStr) :
    getComponent_curl name domain ≠ name := by
  intro h
  have hl := congrArg List.length h
  rw [getComponent_curl_eq] at hl
  simp [curl_str] at hl
  omega

theorem curl_eq_iff (name : CStr) (domain : Option CStr) :
    get_object_curl name domain = getComponent_curl name domain ↔
      name.take 7 ≠ curl_str := by
  rw [get_object_curl_eq]
  by_cases h : name.take 7 = curl_str
  · rw [if_pos h]
    constructor
    · intro heq
      exact absurd heq.symm (getComponent_curl_ne_name name domain)
    · intro hne
      exact absurd h hne
  · rw [if_neg h, getComponent_curl_eq]
    simp [h]

theorem onePathEnv_wait (path : CStr) :
    waitForHandle (onePathEnv path).fields 1 0 = some 0 := by
  simp [waitForHandle, onePathEnv]

/-- C14: `getComponent<T>` always builds `curl://`, the domain (empty when null), a slash
and the name. `get_object<T>` and `getComponent<T>` send the same path to the Manager if
and only if the name does not begin with `curl://`; in that case their runs are the same
for every Manager, and otherwise `get_object<T>` sends the name unchanged,
`getComponent<T>` sends it with a second `curl://` in front, and a Manager exists for
which the two return different results. -/
theorem C14_get_object_vs_getComponent (name : CStr) (domain : Option CStr) :
    getComponent_curl name domain =
      "curl://".toList ++ domain.getD [] ++ "/".toList ++ name ∧
    (get_object_curl name domain = getComponent_curl name domain ↔
      name.take 7 ≠ "curl://".toList) ∧
    (name.take 7 = "curl://".toList →
      get_object_curl name domain = name ∧
      getComponent_curl name domain =
        "curl://".toList ++ domain.getD [] ++ "/".toList ++
          ("curl://".toList ++ name.drop 7)) ∧
    ((∀ (env : Env Unit Unit) (fuel : Nat) (activate : Bool),
        (get_object env fuel (some name) domain activate).result =
          (getComponent env fuel (some name) domain activate).result) ↔
      name.take 7 ≠ "curl://".toList) ∧
    (name.take 7 ≠ "curl://".toList →
      ∀ (Obj T : Type) (env : Env Obj T) (fuel : Nat) (activate : Bool),
        get_object env fuel (some name) domain activate =
          getComponent env fuel (some name) domain activate) := by
  have hc : "curl://".toList = curl_str := rfl
  have hform : getComponent_curl name domain =
      "curl://".toList ++ domain.getD [] ++ "/".toList ++ name := by
    rw [getComponent_curl_eq, hc]
    simp
  have hsame : name.take 7 ≠ curl_str →
      ∀ (Obj T : Type) (env : Env Obj T) (fuel : Nat) (activate : Bool),
        get_object env fuel (some name) domain activate =
          getComponent env fuel (some name) domain activate := by
    intro hne Obj T env fuel activate
    rw [get_object_some, getComponent_some, (curl_eq_iff name domain).2 hne]
  rw [hc]
  refine ⟨by rw [hc] at hform; exact hform, curl_eq_iff name domain, ?_, ?_, hsame⟩
  · intro htake
    refine ⟨by rw [get_object_curl_eq, if_pos htake], ?_⟩
    have hname : name = curl_str ++ name.drop 7 := by
      conv_lhs => rw [← List.take_append_drop 7 name, htake]
    rw [hc] at hform
    rw [hform]
    conv_lhs => rw [hname]
  · constructor
    · intro hall htake
      have h := hall (onePathEnv name) 1 true
      rw [get_object_some, getComponent_some,
        resolveWith_of_some _ _ _ _ _ _ 0 (onePathEnv_wait name),
        resolveWith_of_some _ _ _ _ _ _ 0 (onePathEnv_wait name)] at h
      have h1 : get_object_curl name domain = name := by
        rw [get_object_curl_eq, if_pos htake]
      have h2 := getComponent_curl_ne_name name domain
      simp [onePathEnv, h1, h2, tryValue, catchClauses] at h
    · intro hne env fuel activate
      rw [hsame hne Unit Unit env fuel activate]

/-- Witness of C14: for the name `curl://d/MOUNT1` and a Manager that knows that path
only, `get_object<T>` returns the object and `getComponent<T>`, which asks for
`curl:///curl://d/MOUNT1`, returns nil; for the plain name `MOUNT1` both send
`curl:///MOUNT1`. -/
theorem C14_get_object_vs_getComponent_witness :
    (get_object (onePathEnv "curl://d/MOUNT1".toList) 1 (some "curl://d/MOUNT1".toList)
      none true).result = some (.ok (some ())) ∧
    (getComponent (onePathEnv "curl://d/MOUNT1".toList) 1 (some "curl://d/MOUNT1".toList)
      none true).result = some (.ok none) ∧
    getComponent_curl "curl://d/MOUNT1".toList none = "curl:///curl://d/MOUNT1".toList ∧
    get_object_curl "MOUNT1".toList none = getComponent_curl "MOUNT1".toList none :=
  ⟨rfl, rfl, by decide,
    (C14_get_object_vs_getComponent "MOUNT1".toList none).2.1.2 (by decide)⟩

theorem resolveWith_service_component {Obj T : Type} (env : Env Obj T) (curl : CStr)
    (fuel : Nat) (activate : Bool)
    (hagree : ∀ k, waitForHandle env.fields fuel 0 = some k →
      env.m_manager.get_service (env.fields (k + 1)).m_handle curl activate =
        env.m_manager.get_component (env.fields (k + 1)).m_handle curl activate) :
    (resolveWith env env.m_manager.get_service Event.get_service curl fuel activate).result =
      (resolveWith env env.m_manager.get_component Event.get_component curl fuel
        activate).result ∧
    (resolveWith env env.m_manager.get_service Event.get_service curl fuel
        activate).trace.map Event.asGetComponent =
      (resolveWith env env.m_manager.get_component Event.get_component curl fuel
        activate).trace := by
  cases hw : waitForHandle env.fields fuel 0 with
  | none =>
    rw [resolveWith_of_none _ _ _ _ _ _ hw, resolveWith_of_none _ _ _ _ _ _ hw]
    simp [Event.asGetComponent]
  | some k =>
    rw [resolveWith_of_some _ _ _ _ _ _ k hw, resolveWith_of_some _ _ _ _ _ _ k hw]
    simp [hagree k hw, narrowCalls_map, Event.asGetComponent]

/-- C15: `getComponent<T>` and `getService<T>` are the same function up to the Manager
operation they call. For every name, domain, activate flag and handle they build the same
path; after the same number of polls either both are still waiting or both have left the
wait, with the same sleeps; and when `get_service` and `get_component` of the Manager
answer alike for the handle read for the call, that path and the activate flag, they
return the same result and their traces are the same once `get_service` is read as
`get_component`. With a null name they are equal outright. -/
theorem C15_getComponent_getService_same {Obj T : Type} (env : Env Obj T) (fuel : Nat)
    (name : CStr) (domain : Option CStr) (activate : Bool) :
    getService env fuel none domain activate = getComponent env fuel none domain activate ∧
    getService_curl name domain = getComponent_curl name domain ∧
    ((getService env fuel (some name) domain activate).result = none ↔
      (getComponent env fuel (some name) domain activate).result = none) ∧
    (getService env fuel (some name) domain activate).trace.filter Event.isSleep =
      (getComponent env fuel (some name) domain activate).trace.filter Event.isSleep ∧
    ((∀ k, k < fuel → (env.fields k).m_handle ≠ 0 →
        (∀ j, j < k → (env.fields j).m_handle = 0) →
        env.m_manager.get_service (env.fields (k + 1)).m_handle
            (getComponent_curl name domain) activate =
          env.m_manager.get_component (env.fields (k + 1)).m_handle
            (getComponent_curl name domain) activate) →
      (getService env fuel (some name) domain activate).result =
        (getComponent env fuel (some name) domain activate).result ∧
      (getService env fuel (some name) domain activate).trace.map Event.asGetComponent =
        (getComponent env fuel (some name) domain activate).trace) := by
  have hpath : getService_curl name domain = getComponent_curl name domain := rfl
  refine ⟨rfl, hpath, ?_, ?_, ?_⟩
  · rw [getService_some, getComponent_some, resolveWith_result_none_iff,
      resolveWith_result_none_iff]
  · rw [getService_some, getComponent_some,
      resolveWith_sleeps env _ Event.get_service (fun _ _ _ => rfl),
      resolveWith_sleeps env _ Event.get_component (fun _ _ _ => rfl)]
  · intro hagree
    rw [getService_some, getComponent_some, hpath]
    apply resolveWith_service_component env _ fuel activate
    intro k hw
    obtain ⟨_, h2, h3, h4⟩ := (waitForHandle_eq_some_iff env.fields fuel 0 k).1 hw
    exact hagree k (by omega) h3 (fun j hj => h4 j (Nat.zero_le _) hj)

/-- Witness of C15: the handle is assigned `7` at the third poll and the two operations
of the Manager answer alike for handle `7` only; `getService<T>` and `getComponent<T>`
return the same result after five polls. -/
theorem C15_getComponent_getService_same_witness :
    agreeAt7Env.m_manager.get_service 3 (getComponent_curl "LOG".toList none) true ≠
      agreeAt7Env.m_manager.get_component 3 (getComponent_curl "LOG".toList none) true ∧
    (getService agreeAt7Env 5 (some "LOG".toList) none true).result =
      (getComponent agreeAt7Env 5 (some "LOG".toList) none true).result ∧
    (getService agreeAt7Env 5 (some "LOG".toList) none true).result =
      some (.ok (some 1)) := by
  refine ⟨by simp [agreeAt7Env], ?_, rfl⟩
  refine ((C15_getComponent_getService_same agreeAt7Env 5 "LOG".toList none true).2.2.2.2
    ?_).1
  intro k _ hne _
  have hk : ¬ k < 2 := by
    intro hk
    simp [agreeAt7Env, hk] at hne
  have hk1 : ¬ k + 1 < 2 := by omega
  simp [agreeAt7Env, hk1]

end maci
